import Mathlib

/-!
# Primitive binning register programming (radeonsi, `si_state_binning.c`)

A shallow embedding of `src/gallium/drivers/radeonsi/si_state_binning.c`:
the two bin-size tables, the table search `si_find_bin_size`, the colour and
depth workload estimators, and the decision procedure `si_emit_dpbb_state`
with the two register values it programs.

Conventions of the embedding:

* C `unsigned` values are natural numbers; every arithmetic result that C
  stores in an `unsigned` is reduced modulo `2 ^ 32`.
* Behaviour that C leaves undefined (reading past an array, dividing by zero,
  dereferencing a null pointer) and a failing `assert` end the evaluation with
  a `Fault`, so every function returns `Except Fault _`.
* The three-dimensional tables are contiguous row-major arrays: an index past
  an inner dimension addresses the element that the layout puts there, and
  only an address outside the whole table is a fault.
* A register value is the record of the fields that the `S_..._FIELD(x)`
  macros set; a field that no macro sets is `0`.
-/

namespace SiStateBinning

/-! ## Faults -/

/-- Ways in which an evaluation of the C code stops without a result. -/
inductive Fault where
  /-- An `assert` whose condition is false. -/
  | assert_failed
  /-- An unsigned division whose divisor is zero. -/
  | div_by_zero
  /-- An array read at an index outside the array. -/
  | out_of_bounds
  /-- A dereferenced null pointer. -/
  | null_deref
  deriving DecidableEq, Repr

deriving instance DecidableEq for Except

/-! ## Data model -/

/-- The pair `struct uvec2 { unsigned x, y; }`. -/
structure uvec2 where
  x : Nat
  y : Nat
  deriving DecidableEq, Repr

/-- One table entry, `struct si_bin_size_map`. -/
structure si_bin_size_map where
  start : Nat
  bin_size_x : Nat
  bin_size_y : Nat
  deriving DecidableEq, Repr

/-- The fields of `sscreen->info` that the file reads. -/
structure radeon_info where
  num_render_backends : Nat
  max_se : Nat
  deriving DecidableEq, Repr

/-- The fields of `struct si_screen` that the file reads. -/
structure si_screen where
  info : radeon_info
  dpbb_allowed : Bool
  dfsm_allowed : Bool
  deriving DecidableEq, Repr

/-- C aggregate initialisation of one `struct si_bin_size_map[10]` row: the
listed entries followed by zero-filled entries up to ten. -/
def subtable_row (l : List (Nat × Nat × Nat)) : List si_bin_size_map :=
  let given := l.map (fun e => si_bin_size_map.mk e.1 e.2.1 e.2.2)
  given ++ List.replicate (10 - given.length) (si_bin_size_map.mk 0 0 0)

/-- The `static const si_bin_size_subtable table[]` of
`si_get_color_bin_size` (source lines 90 to 177). -/
def si_get_color_bin_size_table : List (List (List si_bin_size_map)) :=
  [ -- One RB / SE
    [ subtable_row [(0, 128, 128), (1, 64, 128), (2, 32, 128), (3, 16, 128), (17, 0, 0)],
      subtable_row [(0, 128, 128), (2, 64, 128), (3, 32, 128), (5, 16, 128), (17, 0, 0)],
      subtable_row [(0, 128, 128), (3, 64, 128), (5, 16, 128), (17, 0, 0)] ],
    -- Two RB / SE
    [ subtable_row [(0, 128, 128), (2, 64, 128), (3, 32, 128), (9, 16, 128), (33, 0, 0)],
      subtable_row [(0, 128, 128), (3, 64, 128), (5, 32, 128), (9, 16, 128), (33, 0, 0)],
      subtable_row [(0, 256, 256), (2, 128, 256), (3, 128, 128), (5, 64, 128), (9, 16, 128),
        (33, 0, 0)] ],
    -- Four RB / SE
    [ subtable_row [(0, 128, 256), (2, 128, 128), (3, 64, 128), (5, 32, 128), (9, 16, 128),
        (17, 0, 0)],
      subtable_row [(0, 256, 256), (2, 128, 256), (3, 128, 128), (5, 64, 128), (9, 32, 128),
        (17, 16, 128), (33, 0, 0)],
      subtable_row [(0, 256, 512), (2, 128, 512), (3, 64, 512), (5, 32, 512), (9, 32, 256),
        (17, 32, 128), (33, 0, 0)] ] ]

/-- The `static const si_bin_size_subtable table[]` of
`si_get_depth_bin_size` (source lines 201 to 306). -/
def si_get_depth_bin_size_table : List (List (List si_bin_size_map)) :=
  [ -- One RB / SE
    [ subtable_row [(0, 64, 512), (2, 64, 256), (4, 64, 128), (7, 32, 128), (13, 16, 128),
        (49, 0, 0)],
      subtable_row [(0, 128, 512), (2, 64, 512), (4, 64, 256), (7, 64, 128), (13, 32, 128),
        (25, 16, 128), (49, 0, 0)],
      subtable_row [(0, 256, 512), (2, 128, 512), (4, 64, 512), (7, 64, 256), (13, 64, 128),
        (25, 16, 128), (49, 0, 0)] ],
    -- Two RB / SE
    [ subtable_row [(0, 128, 512), (2, 64, 512), (4, 64, 256), (7, 64, 128), (13, 32, 128),
        (25, 16, 128), (97, 0, 0)],
      subtable_row [(0, 256, 512), (2, 128, 512), (4, 64, 512), (7, 64, 256), (13, 64, 128),
        (25, 32, 128), (49, 16, 128), (97, 0, 0)],
      subtable_row [(0, 512, 512), (2, 256, 512), (4, 128, 512), (7, 64, 512), (13, 64, 256),
        (25, 64, 128), (49, 16, 128), (97, 0, 0)] ],
    -- Four RB / SE
    [ subtable_row [(0, 256, 512), (2, 128, 512), (4, 64, 512), (7, 64, 256), (13, 64, 128),
        (25, 32, 128), (49, 16, 128), (193, 0, 0)],
      subtable_row [(0, 512, 512), (2, 256, 512), (4, 128, 512), (7, 64, 512), (13, 64, 256),
        (25, 64, 128), (49, 32, 128), (97, 16, 128), (193, 0, 0)],
      subtable_row [(0, 512, 512), (4, 256, 512), (7, 128, 512), (13, 64, 512), (25, 32, 512),
        (49, 32, 256), (97, 16, 128), (193, 0, 0)] ] ]

/-! ## Integer logarithms (`util/u_math.h`) -/

/-- Halving loop behind `util_logbase2`: the number of times `n` can be halved
before it drops below two, with `fuel` bounding the number of steps. -/
def logbase2_steps : Nat → Nat → Nat
  | 0, _ => 0
  | fuel + 1, n => if 2 ≤ n then logbase2_steps fuel (n / 2) + 1 else 0

/-- Modelled from the spec: `util_logbase2` is declared in `util/u_math.h`,
which is not among the sources; the spec calls it `log2`. It is the floor of
the binary logarithm, and `0` at `0`. -/
def util_logbase2 (n : Nat) : Nat :=
  logbase2_steps n n

/-- Modelled from the spec: `util_logbase2_ceil` is declared in
`util/u_math.h`, which is not among the sources; the spec calls it `ceilLog2`.
It is the ceiling of the binary logarithm, and `0` for `n <= 1`. -/
def util_logbase2_ceil (n : Nat) : Nat :=
  if n ≤ 1 then 0 else 1 + util_logbase2 (n - 1)

/-! ## Bin-size search -/

/-- The scan loop of `si_find_bin_size` (source lines 57 to 60), started at
index `i` with `rest` the entries `subtable[i], subtable[i + 1], ...` that
remain inside the row. It returns the value of `i` at loop exit. Reading
`subtable[i]` or `subtable[i + 1]` past the row is a fault. The second
operand of `&&` is read only when the first holds, as in C. -/
def si_find_bin_size_scan (sum : Nat) : List si_bin_size_map → Nat → Except Fault Nat
  | [], _ => .error .out_of_bounds
  | e :: rest, i =>
    if e.bin_size_x ≠ 0 then
      if e.start ≤ sum then
        match rest with
        | [] => .error .out_of_bounds
        | e1 :: _ =>
          if sum < e1.start then .ok i
          else si_find_bin_size_scan sum rest (i + 1)
      else si_find_bin_size_scan sum rest (i + 1)
    else .ok i

/-- The index `log_num_rb_per_se` of `si_find_bin_size` (source lines 47 to
49); the unsigned division faults on a zero divisor. -/
def log_num_rb_per_se (sscreen : si_screen) : Except Fault Nat :=
  if sscreen.info.max_se = 0 then .error .div_by_zero
  else .ok (util_logbase2_ceil (sscreen.info.num_render_backends / sscreen.info.max_se))

/-- The index `log_num_se` of `si_find_bin_size` (source line 50). -/
def log_num_se (sscreen : si_screen) : Nat :=
  util_logbase2_ceil sscreen.info.max_se

/-- The row `&table[log_num_rb_per_se][log_num_se][0]` (source lines 54 and
55). By the `typedef` of line 40 the table is one contiguous array
`struct si_bin_size_map[3][3][10]`, so the address is that of row
`rb * 3 + se` among the rows laid out one after the other, whether or not
`se` is below `3`; an address past the last row is outside the table, which is
a fault. -/
def si_find_bin_size_subtable (table : List (List (List si_bin_size_map)))
    (rb se : Nat) : Except Fault (List si_bin_size_map) :=
  match table.flatten[rb * 3 + se]? with
  | none => .error .out_of_bounds
  | some subtable => .ok subtable

/-- `si_find_bin_size` (source lines 43 to 64): find the bin size where `sum`
is `>= table[i].start` and `< table[i + 1].start`. -/
def si_find_bin_size (sscreen : si_screen) (table : List (List (List si_bin_size_map)))
    (sum : Nat) : Except Fault uvec2 :=
  match log_num_rb_per_se sscreen with
  | .error f => .error f
  | .ok rb =>
    match si_find_bin_size_subtable table rb (log_num_se sscreen) with
    | .error f => .error f
    | .ok subtable =>
      match si_find_bin_size_scan sum subtable 0 with
      | .error f => .error f
      | .ok i =>
        match subtable[i]? with
        | none => .error .out_of_bounds
        | some e => .ok ⟨e.bin_size_x, e.bin_size_y⟩

/-! ## Pipeline state read by the file -/

/-- The fields of a `struct si_texture` that the file reads: `surface.bpe`,
`surface.has_stencil` and the sample count `buffer.b.b.nr_samples` of its
`pipe_resource` (which `zsbuf->texture->nr_samples` reads as well). -/
structure si_texture where
  bpe : Nat
  has_stencil : Bool
  nr_samples : Nat
  deriving DecidableEq, Repr

/-- The fields of `sctx->framebuffer.state` that the file reads. A surface
pointer is `none` when null, otherwise the texture of the surface; `cbufs` is
the array of colour surface pointers. -/
structure pipe_framebuffer_state where
  nr_cbufs : Nat
  cbufs : List (Option si_texture)
  zsbuf : Option si_texture
  deriving DecidableEq, Repr

/-- The fields of `sctx->framebuffer` that the file reads. -/
structure si_framebuffer where
  state : pipe_framebuffer_state
  nr_samples : Nat
  nr_color_samples : Nat
  colorbuf_enabled_4bit : Nat
  deriving DecidableEq, Repr

/-- The fields of `struct si_state_blend` that the file reads. -/
structure si_state_blend where
  alpha_to_coverage : Bool
  cb_target_enabled_4bit : Nat
  blend_enable_4bit : Nat
  deriving DecidableEq, Repr

/-- The fields of `struct si_state_dsa` that the file reads. -/
structure si_state_dsa where
  depth_enabled : Bool
  stencil_enabled : Bool
  db_can_write : Bool
  deriving DecidableEq, Repr

/-- Modelled from the spec: the field extraction macros `G_02880C_*` of
`DB_SHADER_CONTROL` are defined in a register header that is not among the
sources; the spec lists the fields as the pixel-shader behaviour flags. The
register word is the record of the values the macros extract from it. -/
structure db_shader_control where
  Z_EXPORT_ENABLE : Bool
  Z_ORDER : Nat
  KILL_ENABLE : Bool
  COVERAGE_TO_MASK_ENABLE : Bool
  MASK_EXPORT_ENABLE : Bool
  EXEC_ON_HIER_FAIL : Bool
  EXEC_ON_NOOP : Bool
  DEPTH_BEFORE_SHADER : Bool
  CONSERVATIVE_Z_EXPORT : Nat
  deriving DecidableEq, Repr

/-- Modelled from the spec: the value `V_02880C_EARLY_Z_THEN_LATE_Z` of the
`Z_ORDER` field comes from a register header that is not among the sources;
the spec calls it the early-Z-then-late-Z ordering mode. -/
def V_02880C_EARLY_Z_THEN_LATE_Z : Nat := 1

/-- Modelled from the spec: `enum radeon_family` is declared in a header that
is not among the sources. The three families named by the `switch` of
`si_emit_dpbb_state` are kept; every other enumerator is `CHIP_OTHER`. -/
inductive radeon_family where
  | CHIP_VEGA10
  | CHIP_VEGA12
  | CHIP_RAVEN
  | CHIP_OTHER
  deriving DecidableEq, Repr

/-- Modelled from the spec: `enum chip_class` is declared in a header that is
not among the sources; a chip generation is the number of its enumerator and
`GFX9` is the generation the file compares with. -/
def GFX9 : Nat := 11

/-- The fields of `struct si_context` that the file reads. The queued blend
and depth-stencil-alpha state pointers are `none` when null.
`si_get_ps_iter_samples` holds the value returned by the helper of that name,
which is defined outside this file. -/
structure si_context where
  screen : si_screen
  chip_class : Nat
  family : radeon_family
  framebuffer : si_framebuffer
  queued_named_blend : Option si_state_blend
  queued_named_dsa : Option si_state_dsa
  ps_db_shader_control : db_shader_control
  dpbb_force_off : Bool
  si_get_ps_iter_samples : Nat
  deriving DecidableEq, Repr

/-! ## Register values -/

/-- Modelled from the spec: values of the `BINNING_MODE` field, whose
encodings come from a register header that is not among the sources. -/
inductive V_028C44 where
  | BINNING_ALLOWED
  | DISABLE_BINNING_USE_LEGACY_SC
  deriving DecidableEq, Repr

/-- Modelled from the spec: values of the `PUNCHOUT_MODE` field, whose
encodings come from a register header that is not among the sources. -/
inductive V_028060 where
  | AUTO
  | FORCE_OFF
  deriving DecidableEq, Repr

/-- Modelled from the spec: the value written to `PA_SC_BINNER_CNTL_0` (word
A), as the record of the fields set by the `S_028C44_*` macros, whose bit
positions come from a register header that is not among the sources. -/
structure PA_SC_BINNER_CNTL_0 where
  BINNING_MODE : V_028C44
  BIN_SIZE_X : Nat := 0
  BIN_SIZE_Y : Nat := 0
  BIN_SIZE_X_EXTEND : Nat := 0
  BIN_SIZE_Y_EXTEND : Nat := 0
  CONTEXT_STATES_PER_BIN : Nat := 0
  PERSISTENT_STATES_PER_BIN : Nat := 0
  DISABLE_START_OF_PRIM : Nat := 0
  FPOVS_PER_BATCH : Nat := 0
  OPTIMAL_BIN_SELECTION : Nat := 0
  deriving DecidableEq, Repr

/-- Modelled from the spec: the value written to `DB_DFSM_CONTROL` (word B),
as the record of the fields set by the `S_028060_*` macros, whose bit
positions come from a register header that is not among the sources. -/
structure DB_DFSM_CONTROL where
  PUNCHOUT_MODE : V_028060
  POPS_DRAIN_PS_ON_OVERLAP : Nat := 0
  deriving DecidableEq, Repr

/-- The two register writes of one evaluation, in program order. -/
structure dpbb_regs where
  binner_cntl_0 : PA_SC_BINNER_CNTL_0
  dfsm_control : DB_DFSM_CONTROL
  deriving DecidableEq, Repr

/-- The C conversion of a `bool` to an integer. -/
def bool_to_uint (b : Bool) : Nat := if b then 1 else 0

/-! ## Workload estimators -/

/-- The loop of `si_get_color_bin_size` that adds up the bytes per pixel
(source lines 73 to 80): `n` iterations remain, `i` is the loop counter and
`sum` the running total. `0xf << (i * 4)` is reduced to 32 bits. -/
def si_get_color_bin_size_bpp (fb : pipe_framebuffer_state) (cb_target_enabled_4bit : Nat) :
    Nat → Nat → Nat → Except Fault Nat
  | 0, _, sum => .ok sum
  | n + 1, i, sum =>
    if cb_target_enabled_4bit &&& ((0xf <<< (i * 4)) % 2 ^ 32) = 0 then
      si_get_color_bin_size_bpp fb cb_target_enabled_4bit n (i + 1) sum
    else
      match fb.cbufs[i]? with
      | none => .error .out_of_bounds
      | some none => .error .null_deref
      | some (some tex) =>
        si_get_color_bin_size_bpp fb cb_target_enabled_4bit n (i + 1) ((sum + tex.bpe) % 2 ^ 32)

/-- The workload sum that `si_get_color_bin_size` passes to the search (source
lines 69 to 88). -/
def si_get_color_bin_size_sum (sctx : si_context) (cb_target_enabled_4bit : Nat) :
    Except Fault Nat :=
  let num_fragments := sctx.framebuffer.nr_color_samples
  match si_get_color_bin_size_bpp sctx.framebuffer.state cb_target_enabled_4bit
      sctx.framebuffer.state.nr_cbufs 0 0 with
  | .error f => .error f
  | .ok sum =>
    if 2 ≤ num_fragments then
      if 2 ≤ sctx.si_get_ps_iter_samples then .ok ((sum * num_fragments) % 2 ^ 32)
      else .ok ((sum * 2) % 2 ^ 32)
    else .ok sum

/-- `si_get_color_bin_size` (source lines 66 to 180). -/
def si_get_color_bin_size (sctx : si_context) (cb_target_enabled_4bit : Nat) :
    Except Fault uvec2 :=
  match si_get_color_bin_size_sum sctx cb_target_enabled_4bit with
  | .error f => .error f
  | .ok sum => si_find_bin_size sctx.screen si_get_color_bin_size_table sum

/-- The workload sum of `si_get_depth_bin_size` (source lines 195 to 199). -/
def si_get_depth_bin_size_sum (dsa : si_state_dsa) (tex : si_texture) : Nat :=
  let depth_coeff := if dsa.depth_enabled then 5 else 0
  let stencil_coeff := if tex.has_stencil && dsa.stencil_enabled then 1 else 0
  (4 * (depth_coeff + stencil_coeff) * tex.nr_samples) % 2 ^ 32

/-- `si_get_depth_bin_size` (source lines 182 to 309). When no depth buffer is
bound the `||` does not read `dsa`; otherwise a null `dsa` is dereferenced. -/
def si_get_depth_bin_size (sctx : si_context) : Except Fault uvec2 :=
  match sctx.framebuffer.state.zsbuf with
  | none => .ok ⟨512, 512⟩
  | some tex =>
    match sctx.queued_named_dsa with
    | none => .error .null_deref
    | some dsa =>
      if !dsa.depth_enabled && !dsa.stencil_enabled then .ok ⟨512, 512⟩
      else si_find_bin_size sctx.screen si_get_depth_bin_size_table
        (si_get_depth_bin_size_sum dsa tex)

/-! ## The decision procedure -/

/-- The register values written by `si_emit_dpbb_disable` (source lines 311 to
321). -/
def si_emit_dpbb_disable : dpbb_regs :=
  { binner_cntl_0 :=
      { BINNING_MODE := V_028C44.DISABLE_BINNING_USE_LEGACY_SC
        DISABLE_START_OF_PRIM := 1 }
    dfsm_control :=
      { PUNCHOUT_MODE := V_028060.FORCE_OFF
        POPS_DRAIN_PS_ON_OVERLAP := 1 } }

/-- The local `ps_can_kill` of `si_emit_dpbb_state` (source lines 337 to 340). -/
def ps_can_kill (c : db_shader_control) (blend : si_state_blend) : Bool :=
  c.KILL_ENABLE || c.MASK_EXPORT_ENABLE || c.COVERAGE_TO_MASK_ENABLE || blend.alpha_to_coverage

/-- The local `db_can_reject_z_trivially` of `si_emit_dpbb_state` (source
lines 342 to 345). -/
def db_can_reject_z_trivially (c : db_shader_control) : Bool :=
  !c.Z_EXPORT_ENABLE || c.CONSERVATIVE_Z_EXPORT != 0 || c.DEPTH_BEFORE_SHADER

/-- The local `cb_target_enabled_4bit` of `si_emit_dpbb_state` (source lines
358 and 359). -/
def cb_target_enabled_4bit (sctx : si_context) (blend : si_state_blend) : Nat :=
  sctx.framebuffer.colorbuf_enabled_4bit &&& blend.cb_target_enabled_4bit

/-- The choice of `bin_size` between the two candidates (source lines 364 to
368); the areas are `unsigned` products. -/
def bin_size_select (color_bin_size depth_bin_size : uvec2) : uvec2 :=
  let color_area := (color_bin_size.x * color_bin_size.y) % 2 ^ 32
  let depth_area := (depth_bin_size.x * depth_bin_size.y) % 2 ^ 32
  if color_area < depth_area then color_bin_size else depth_bin_size

/-- The local `bin_size` of `si_emit_dpbb_state` (source lines 356 to 368). -/
def si_emit_dpbb_state_bin_size (sctx : si_context) (blend : si_state_blend) :
    Except Fault uvec2 :=
  match si_get_color_bin_size sctx (cb_target_enabled_4bit sctx blend) with
  | .error f => .error f
  | .ok color_bin_size =>
    match si_get_depth_bin_size sctx with
    | .error f => .error f
    | .ok depth_bin_size => .ok (bin_size_select color_bin_size depth_bin_size)

/-- The local `zs_eqaa_dfsm_bug` of `si_emit_dpbb_state` (source lines 378 to
381). -/
def zs_eqaa_dfsm_bug (sctx : si_context) : Bool :=
  match sctx.framebuffer.state.zsbuf with
  | none => false
  | some tex =>
    sctx.chip_class == GFX9 && sctx.framebuffer.nr_samples != max 1 tex.nr_samples

/-- The condition under which DFSM is preferred (source lines 383 to 390). -/
def dfsm_preferred (sctx : si_context) (blend : si_state_blend) : Bool :=
  sctx.screen.dfsm_allowed &&
  !zs_eqaa_dfsm_bug sctx &&
  cb_target_enabled_4bit sctx blend != 0 &&
  !sctx.ps_db_shader_control.KILL_ENABLE &&
  !sctx.ps_db_shader_control.EXEC_ON_HIER_FAIL &&
  !sctx.ps_db_shader_control.EXEC_ON_NOOP &&
  sctx.ps_db_shader_control.Z_ORDER == V_02880C_EARLY_Z_THEN_LATE_Z

/-- The locals `punchout_mode` and `disable_start_of_prim` after the DFSM
block of `si_emit_dpbb_state` (source lines 375 to 394). -/
def si_emit_dpbb_state_dfsm (sctx : si_context) (blend : si_state_blend) : V_028060 × Bool :=
  if dfsm_preferred sctx blend then
    (V_028060.AUTO, cb_target_enabled_4bit sctx blend &&& blend.blend_enable_4bit != 0)
  else
    (V_028060.FORCE_OFF, true)

/-- The tunable parameters `context_states_per_bin`,
`persistent_states_per_bin` and `fpovs_per_batch` chosen by the `switch` on
the chip family (source lines 396 to 412); `default: assert(0)` is a fault. -/
def si_emit_dpbb_state_tunables : radeon_family → Except Fault (Nat × Nat × Nat)
  | .CHIP_VEGA10 => .ok (5, 31, 63)
  | .CHIP_VEGA12 => .ok (5, 31, 63)
  | .CHIP_RAVEN => .ok (5, 31, 63)
  | .CHIP_OTHER => .error .assert_failed

/-- One component of `bin_size_extend` (source lines 415 to 419); the
subtraction cannot wrap because `util_logbase2 n >= 5` when `n >= 32`. -/
def bin_size_extend (n : Nat) : Nat :=
  if 32 ≤ n then util_logbase2 n - 5 else 0

/-- `si_emit_dpbb_state` (source lines 323 to 438). The result is the pair of
register values handed to `radeon_opt_set_context_reg`. -/
def si_emit_dpbb_state (sctx : si_context) : Except Fault dpbb_regs :=
  if sctx.chip_class < GFX9 then .error .assert_failed
  else
    match sctx.screen.dpbb_allowed, sctx.queued_named_blend, sctx.queued_named_dsa,
      sctx.dpbb_force_off with
    | true, some blend, some dsa, false =>
      -- Disable DPBB when it's believed to be inefficient.
      if ps_can_kill sctx.ps_db_shader_control blend &&
          db_can_reject_z_trivially sctx.ps_db_shader_control &&
          sctx.framebuffer.state.zsbuf.isSome &&
          dsa.db_can_write then
        .ok si_emit_dpbb_disable
      else
        -- Compute the bin size.
        match si_emit_dpbb_state_bin_size sctx blend with
        | .error f => .error f
        | .ok bin_size =>
          if bin_size.x = 0 ∨ bin_size.y = 0 then .ok si_emit_dpbb_disable
          else
            -- Enable DFSM if it's preferred.
            let dfsm := si_emit_dpbb_state_dfsm sctx blend
            -- Tunable parameters.
            match si_emit_dpbb_state_tunables sctx.family with
            | .error f => .error f
            | .ok (context_states_per_bin, persistent_states_per_bin, fpovs_per_batch) =>
              -- Emit registers.
              .ok
                { binner_cntl_0 :=
                    { BINNING_MODE := V_028C44.BINNING_ALLOWED
                      BIN_SIZE_X := bool_to_uint (bin_size.x == 16)
                      BIN_SIZE_Y := bool_to_uint (bin_size.y == 16)
                      BIN_SIZE_X_EXTEND := bin_size_extend bin_size.x
                      BIN_SIZE_Y_EXTEND := bin_size_extend bin_size.y
                      CONTEXT_STATES_PER_BIN := context_states_per_bin
                      PERSISTENT_STATES_PER_BIN := persistent_states_per_bin
                      DISABLE_START_OF_PRIM := bool_to_uint dfsm.2
                      FPOVS_PER_BATCH := fpovs_per_batch
                      OPTIMAL_BIN_SELECTION := 1 }
                  dfsm_control :=
                    { PUNCHOUT_MODE := dfsm.1
                      POPS_DRAIN_PS_ON_OVERLAP := 1 } }
    | _, _, _, _ => .ok si_emit_dpbb_disable

/-! ## Shape of a table row -/

/-- Walking a row from its head, every entry with a non-zero `bin_size_x` has
a successor inside the row to which it is related by `R`, until an entry with
`bin_size_x = 0` (the sentinel) is met. -/
def row_chain (R : si_bin_size_map → si_bin_size_map → Bool) : List si_bin_size_map → Bool
  | [] => false
  | [e] => e.bin_size_x == 0
  | e :: e1 :: rest => e.bin_size_x == 0 || (R e e1 && row_chain R (e1 :: rest))

/-- The area `bin_size_x * bin_size_y` of an entry. -/
def entry_area (e : si_bin_size_map) : Nat :=
  e.bin_size_x * e.bin_size_y

/-- The size stored in an entry. -/
def entry_size (e : si_bin_size_map) : uvec2 :=
  ⟨e.bin_size_x, e.bin_size_y⟩

/-- The relation between consecutive entries that the proofs rely on: the
threshold grows strictly, the area does not grow, and the size changes. -/
def row_step (e e1 : si_bin_size_map) : Bool :=
  decide (e.start < e1.start) && decide (entry_area e1 ≤ entry_area e) &&
    decide (entry_size e ≠ entry_size e1)

/-- The checks on a row that the proofs rely on: it starts at threshold `0`,
it is a `row_step` chain up to its sentinel, and every entry with
`bin_size_x = 0` has `bin_size_y = 0` too. -/
def row_ok (l : List si_bin_size_map) : Bool :=
  row_chain row_step l && l.head?.all (fun e => e.start == 0) &&
    l.all (fun e => e.bin_size_x != 0 || e.bin_size_y == 0)

/-! ## Example snapshots -/

/-- The shader control word with every flag clear and `Z_ORDER` set to
early-Z-then-late-Z. -/
def example_shader_control : db_shader_control :=
  { Z_EXPORT_ENABLE := false
    Z_ORDER := V_02880C_EARLY_Z_THEN_LATE_Z
    KILL_ENABLE := false
    COVERAGE_TO_MASK_ENABLE := false
    MASK_EXPORT_ENABLE := false
    EXEC_ON_HIER_FAIL := false
    EXEC_ON_NOOP := false
    DEPTH_BEFORE_SHADER := false
    CONSERVATIVE_Z_EXPORT := 0 }

/-- A GFX9 Raven snapshot with two render backends and one shader engine, one
32-bit colour target that is enabled and written, no depth buffer, and depth
and stencil tests off. -/
def example_context : si_context :=
  { screen := ⟨⟨2, 1⟩, true, true⟩
    chip_class := GFX9
    family := .CHIP_RAVEN
    framebuffer :=
      { state := { nr_cbufs := 1, cbufs := [some ⟨4, false, 1⟩], zsbuf := none }
        nr_samples := 1
        nr_color_samples := 1
        colorbuf_enabled_4bit := 0xf }
    queued_named_blend := some ⟨false, 0xf, 0⟩
    queued_named_dsa := some ⟨false, false, false⟩
    ps_db_shader_control := example_shader_control
    dpbb_force_off := false
    si_get_ps_iter_samples := 1 }

/-- Scenario 1 of the spec: two render backends, one shader engine, no colour
target. -/
def scenario1_context : si_context :=
  { example_context with
    framebuffer :=
      { state := { nr_cbufs := 0, cbufs := [], zsbuf := none }
        nr_samples := 1
        nr_color_samples := 1
        colorbuf_enabled_4bit := 0 } }

/-- A snapshot whose screen reports no shader engine, so that any table lookup
would divide by zero, with a four-sample depth buffer bound and the depth and
stencil tests off. -/
def no_tests_context : si_context :=
  { example_context with
    screen := ⟨⟨0, 0⟩, true, true⟩
    framebuffer :=
      { state := { nr_cbufs := 0, cbufs := [], zsbuf := some ⟨4, true, 4⟩ }
        nr_samples := 4
        nr_color_samples := 4
        colorbuf_enabled_4bit := 0 }
    queued_named_dsa := some ⟨false, false, true⟩ }

/-- Scenario 3 of the spec: the pixel shader can kill, depth export is off, a
depth buffer is bound and depth writes are permitted. -/
def scenario3_context : si_context :=
  { example_context with
    framebuffer :=
      { state := { nr_cbufs := 1, cbufs := [some ⟨4, false, 1⟩], zsbuf := some ⟨4, true, 1⟩ }
        nr_samples := 1
        nr_color_samples := 1
        colorbuf_enabled_4bit := 0xf }
    queued_named_dsa := some ⟨true, false, true⟩
    ps_db_shader_control := { example_shader_control with KILL_ENABLE := true } }

/-- A snapshot of a chip family outside the `switch` whose force-off flag is
set. -/
def force_off_other_family_context : si_context :=
  { example_context with family := .CHIP_OTHER, dpbb_force_off := true }

/-- A snapshot of a chip family outside the `switch` that passes both gates
with a non-zero bin size. -/
def other_family_context : si_context :=
  { example_context with family := .CHIP_OTHER }

/-- A snapshot with eight render backends and four shader engines, no colour
target, and a one-sample depth buffer with a stencil plane on which only the
stencil test is enabled: the colour candidate `(256, 256)` and the depth
candidate `(128, 512)` have the same area. -/
def equal_area_context : si_context :=
  { example_context with
    screen := ⟨⟨8, 4⟩, true, true⟩
    framebuffer :=
      { state := { nr_cbufs := 0, cbufs := [], zsbuf := some ⟨4, true, 1⟩ }
        nr_samples := 1
        nr_color_samples := 1
        colorbuf_enabled_4bit := 0 }
    queued_named_blend := some ⟨false, 0, 0⟩
    queued_named_dsa := some ⟨false, true, false⟩ }

/-- A GFX9 snapshot whose framebuffer has four samples but two colour samples,
with a four-sample depth buffer on which the depth test is enabled, and one
32-bit colour target that is enabled and written. -/
def eqaa_context : si_context :=
  { example_context with
    framebuffer :=
      { state := { nr_cbufs := 1, cbufs := [some ⟨4, false, 4⟩], zsbuf := some ⟨4, false, 4⟩ }
        nr_samples := 4
        nr_color_samples := 2
        colorbuf_enabled_4bit := 0xf }
    queued_named_dsa := some ⟨true, false, true⟩ }

/-- A snapshot of the generation before `GFX9` whose force-off flag is set. -/
def below_gfx9_context : si_context :=
  { example_context with chip_class := GFX9 - 1, dpbb_force_off := true }

/-- A GFX9 snapshot without a blend state object, of a chip family outside the
`switch`, on a screen that reports no shader engine. -/
def missing_blend_context : si_context :=
  { no_tests_context with family := .CHIP_OTHER, queued_named_blend := none }

/-- A screen with eight render backends and one shader engine: the index
`log_num_rb_per_se` is `3`. -/
def eight_rb_per_se_screen : si_screen :=
  ⟨⟨8, 1⟩, true, true⟩

/-- A screen with eight render backends and eight shader engines: the index
`log_num_rb_per_se` is `0` and the index `log_num_se` is `3`. -/
def eight_se_screen : si_screen :=
  ⟨⟨8, 8⟩, true, true⟩

/-- The example snapshot with blending enabled on its colour target. -/
def blend_enabled_context : si_context :=
  { example_context with queued_named_blend := some ⟨false, 0xf, 0xf⟩ }

/-- Sixteen render backends and four shader engines, with a four-sample depth
buffer that has a stencil plane and both the depth and the stencil test
enabled. -/
def depth_stencil_context : si_context :=
  { example_context with
    screen := ⟨⟨16, 4⟩, true, true⟩
    framebuffer :=
      { state := { nr_cbufs := 1, cbufs := [some ⟨4, false, 4⟩], zsbuf := some ⟨4, true, 4⟩ }
        nr_samples := 4
        nr_color_samples := 4
        colorbuf_enabled_4bit := 0xf }
    queued_named_dsa := some ⟨true, true, true⟩ }

/-- A bin dimension held by a real table entry: a power of two from `16` to
`512`. -/
def bin_dim_ok (n : Nat) : Bool :=
  n == 16 || n == 32 || n == 64 || n == 128 || n == 256 || n == 512

/-- Every entry of the row is either all-zero in its size or holds two
dimensions that pass `bin_dim_ok`. -/
def row_dims_ok (l : List si_bin_size_map) : Bool :=
  l.all (fun e => (e.bin_size_x == 0 && e.bin_size_y == 0) ||
    (bin_dim_ok e.bin_size_x && bin_dim_ok e.bin_size_y))

/-- The index of the first entry with `bin_size_x = 0`, or the length of the
row when there is none. -/
def sentinel_index : List si_bin_size_map → Nat
  | [] => 0
  | e :: rest => if e.bin_size_x = 0 then 0 else sentinel_index rest + 1

/-- Every entry after the first entry with `bin_size_x = 0` is the zero-filled
entry `{0, 0, 0}`. -/
def row_padding_ok : List si_bin_size_map → Bool
  | [] => true
  | e :: rest =>
    if e.bin_size_x = 0 then rest.all (fun p => p == si_bin_size_map.mk 0 0 0)
    else row_padding_ok rest

/-- What the instrumented scan loop records: the value of `i` at loop exit (or
the fault), the indices of the entries it reads in program order, and the
number of times the loop body is entered. -/
structure scan_trace where
  result : Except Fault Nat
  reads : List Nat
  iterations : Nat
  deriving DecidableEq, Repr

/-- The scan loop of `si_find_bin_size` (source lines 57 to 60) with the same
control flow as `si_find_bin_size_scan`, instrumented to record every index at
which it reads `subtable[i]` or looks ahead at `subtable[i + 1]`, also when
that index is past the row, and to count the entries into the loop body. -/
def si_find_bin_size_scan_trace (sum : Nat) : List si_bin_size_map → Nat → scan_trace
  | [], i => ⟨.error .out_of_bounds, [i], 0⟩
  | e :: rest, i =>
    if e.bin_size_x ≠ 0 then
      if e.start ≤ sum then
        match rest with
        | [] => ⟨.error .out_of_bounds, [i, i + 1], 1⟩
        | e1 :: _ =>
          if sum < e1.start then ⟨.ok i, [i, i + 1], 1⟩
          else
            let t := si_find_bin_size_scan_trace sum rest (i + 1)
            ⟨t.result, i :: (i + 1) :: t.reads, t.iterations + 1⟩
      else
        let t := si_find_bin_size_scan_trace sum rest (i + 1)
        ⟨t.result, i :: t.reads, t.iterations + 1⟩
    else ⟨.ok i, [i], 0⟩

/-- A snapshot whose colour workload sum `4 * 16 = 64` is above the sentinel
threshold of its colour row, so that the colour search returns `(0, 0)`. -/
def heavy_color_context : si_context :=
  { example_context with
    framebuffer :=
      { state := { nr_cbufs := 1, cbufs := [some ⟨4, false, 16⟩], zsbuf := none }
        nr_samples := 16
        nr_color_samples := 16
        colorbuf_enabled_4bit := 0xf }
    si_get_ps_iter_samples := 16 }

/-- Whether the four-bit group `i` of `mask` (bits `4 * i` to `4 * i + 3`) is
non-zero. This definition follows the words of the spec, not the source
expression `mask & (0xf << (i * 4))`. -/
def target_group_enabled (mask i : Nat) : Bool :=
  (mask / 16 ^ i) % 16 != 0

/-- The bytes per pixel of colour target `i`, and `0` when the target is not
bound. -/
def target_bpe (fb : pipe_framebuffer_state) (i : Nat) : Nat :=
  match fb.cbufs[i]? with
  | some (some tex) => tex.bpe
  | _ => 0

/-- The sum of the bytes per pixel over the colour targets `i < nr_cbufs`
whose four-bit group in `mask` is non-zero, as a natural number. This
definition follows the words of the spec. -/
def enabled_bytes_per_pixel (fb : pipe_framebuffer_state) (mask : Nat) : Nat :=
  (((List.range fb.nr_cbufs).filter (target_group_enabled mask)).map (target_bpe fb)).sum

/-- The factor by which the spec multiplies the sum of the bytes per pixel:
`1` below two colour samples, the colour sample count when the pixel shader
iterates over at least two samples, and `2` otherwise. This definition
follows the words of the spec. -/
def sample_factor (sctx : si_context) : Nat :=
  if sctx.framebuffer.nr_color_samples < 2 then 1
  else if 2 ≤ sctx.si_get_ps_iter_samples then sctx.framebuffer.nr_color_samples
  else 2

/-- A snapshot with two colour targets of 4 and 8 bytes per pixel, both
bound and enabled in the framebuffer, of which the blend state writes only
the second; four colour samples and no per-sample shading. -/
def two_target_context : si_context :=
  { example_context with
    framebuffer :=
      { state :=
          { nr_cbufs := 2, cbufs := [some ⟨4, false, 4⟩, some ⟨8, false, 4⟩], zsbuf := none }
        nr_samples := 4
        nr_color_samples := 4
        colorbuf_enabled_4bit := 0xff }
    queued_named_blend := some ⟨false, 0xf0, 0⟩ }

/-! ## The integer logarithm -/

/-- The halving loop computes the floor of the binary logarithm once the fuel
is at least the argument. -/
theorem logbase2_steps_eq_log2 :
    ∀ (fuel n : Nat), n ≤ fuel → logbase2_steps fuel n = Nat.log2 n := by
  intro fuel
  induction fuel with
  | zero =>
    intro n hn
    have h0 : n = 0 := by omega
    subst h0
    rw [Nat.log2]
    simp [logbase2_steps]
  | succ fuel ih =>
    intro n hn
    rw [logbase2_steps, Nat.log2]
    by_cases h2 : 2 ≤ n
    · have hle : n / 2 ≤ fuel := by omega
      simp [h2, ih (n / 2) hle]
    · simp [h2]

/-- `util_logbase2` is the floor of the binary logarithm. -/
theorem util_logbase2_eq_log2 (n : Nat) : util_logbase2 n = Nat.log2 n :=
  logbase2_steps_eq_log2 n n (Nat.le_refl n)

/-! ## The scan loop on a chained row -/

theorem row_chain_tail (R : si_bin_size_map → si_bin_size_map → Bool)
    (e e1 : si_bin_size_map) (rest : List si_bin_size_map)
    (hc : row_chain R (e :: e1 :: rest) = true) (hx : e.bin_size_x ≠ 0) :
    R e e1 = true ∧ row_chain R (e1 :: rest) = true := by
  simpa [row_chain, hx] using hc

/-- On a chained row whose head threshold is at most `sum`, the scan exits at
some offset `k`: the entry there has a threshold at most `sum`; if it is a
real entry the next threshold is above `sum`; and every entry before it is a
real entry whose successor has a threshold at most `sum`. -/
theorem scan_exit (R : si_bin_size_map → si_bin_size_map → Bool) (sum : Nat) :
    ∀ (rest : List si_bin_size_map) (e : si_bin_size_map) (i : Nat),
      row_chain R (e :: rest) = true → e.start ≤ sum →
      ∃ k ek, si_find_bin_size_scan sum (e :: rest) i = .ok (i + k) ∧
        (e :: rest)[k]? = some ek ∧ ek.start ≤ sum ∧
        (ek.bin_size_x ≠ 0 → ∃ e1, (e :: rest)[k + 1]? = some e1 ∧ sum < e1.start) ∧
        (∀ j, j < k → ∃ ej ej1, (e :: rest)[j]? = some ej ∧ ej.bin_size_x ≠ 0 ∧
            (e :: rest)[j + 1]? = some ej1 ∧ ej1.start ≤ sum) := by
  intro rest
  induction rest with
  | nil =>
    intro e i hc hs
    have hx : e.bin_size_x = 0 := by simpa [row_chain] using hc
    exact ⟨0, e, by simp [si_find_bin_size_scan, hx], by simp, hs, by simp [hx], by simp⟩
  | cons e1 rest ih =>
    intro e i hc hs
    by_cases hx : e.bin_size_x = 0
    · exact ⟨0, e, by simp [si_find_bin_size_scan, hx], by simp, hs, by simp [hx], by simp⟩
    · have hc1 := (row_chain_tail R e e1 rest hc hx).2
      by_cases hlt : sum < e1.start
      · exact ⟨0, e, by simp [si_find_bin_size_scan, hx, hs, hlt], by simp, hs,
          fun _ => ⟨e1, by simp, hlt⟩, by simp⟩
      · obtain ⟨k, ek, h1, h2, h3, h4, h5⟩ := ih e1 (i + 1) hc1 (by omega)
        refine ⟨k + 1, ek, ?_, ?_, h3, ?_, ?_⟩
        · rw [si_find_bin_size_scan]
          simp only [hx, hs, hlt, ne_eq, not_false_eq_true, if_true, if_false]
          rw [h1]
          congr 1
          omega
        · simpa using h2
        · intro hek
          obtain ⟨e2, he2, hlt2⟩ := h4 hek
          exact ⟨e2, by simpa using he2, hlt2⟩
        · intro j hj
          cases j with
          | zero => exact ⟨e, e1, by simp, hx, by simp, by omega⟩
          | succ j =>
            obtain ⟨ej, ej1, q1, q2, q3, q4⟩ := h5 j (by omega)
            exact ⟨ej, ej1, by simpa using q1, q2, by simpa using q3, q4⟩

/-- A chained row contains its sentinel: an index `n` whose entry has
`bin_size_x = 0` while every earlier entry is real and is related by `R` to
its successor. -/
theorem row_chain_sentinel (R : si_bin_size_map → si_bin_size_map → Bool) :
    ∀ (l : List si_bin_size_map), row_chain R l = true →
      ∃ n s, l[n]? = some s ∧ s.bin_size_x = 0 ∧
        ∀ j, j < n → ∃ ej ej1, l[j]? = some ej ∧ ej.bin_size_x ≠ 0 ∧
          l[j + 1]? = some ej1 ∧ R ej ej1 = true := by
  intro l
  induction l with
  | nil => intro h; simp [row_chain] at h
  | cons e rest ih =>
    intro hc
    by_cases hx : e.bin_size_x = 0
    · exact ⟨0, e, by simp, hx, by simp⟩
    · cases rest with
      | nil => simp [row_chain, hx] at hc
      | cons e1 rest =>
        obtain ⟨hR, hc1⟩ := row_chain_tail R e e1 rest hc hx
        obtain ⟨n, s, h1, h2, h3⟩ := ih hc1
        refine ⟨n + 1, s, by simpa using h1, h2, ?_⟩
        intro j hj
        cases j with
        | zero => exact ⟨e, e1, by simp, hx, by simp, hR⟩
        | succ j =>
          obtain ⟨ej, ej1, q1, q2, q3, q4⟩ := h3 j (by omega)
          exact ⟨ej, ej1, by simpa using q1, q2, by simpa using q3, q4⟩

/-- Along the real entries of a row, a reflexive and transitive relation that
holds between consecutive entries holds between any two entries in order. -/
theorem row_rel_of_le (T : si_bin_size_map → si_bin_size_map → Prop)
    (hrefl : ∀ e, T e e) (htrans : ∀ a b c, T a b → T b c → T a c)
    (l : List si_bin_size_map) (n : Nat)
    (hstep : ∀ j, j < n → ∃ ej ej1, l[j]? = some ej ∧ l[j + 1]? = some ej1 ∧ T ej ej1) :
    ∀ (d a : Nat) (ea eb : si_bin_size_map), a + d ≤ n → l[a]? = some ea →
      l[a + d]? = some eb → T ea eb := by
  intro d
  induction d with
  | zero =>
    intro a ea eb _ ha hb
    simp only [Nat.add_zero] at hb
    rw [ha] at hb
    cases hb
    exact hrefl _
  | succ d ih =>
    intro a ea eb hn ha hb
    obtain ⟨ej, ej1, q1, q2, q3⟩ := hstep a (by omega)
    rw [ha] at q1
    cases q1
    have hb1 : l[a + 1 + d]? = some eb := by
      have : a + 1 + d = a + (d + 1) := by omega
      rw [this]; exact hb
    exact htrans _ _ _ q3 (ih (a + 1) ej1 eb (by omega) q2 hb1)


/-! ## The rows of the two tables -/

/-- The facts about a row that `row_ok` checks, by index: `n` is the index of
the sentinel `s`, the row starts at threshold `0`, and consecutive entries up
to the sentinel are real and related by `row_step`. -/
theorem row_ok_facts (l : List si_bin_size_map) (h : row_ok l = true) :
    ∃ n s, l[n]? = some s ∧ s.bin_size_x = 0 ∧ s.bin_size_y = 0 ∧
      (∃ e0 rest, l = e0 :: rest ∧ e0.start = 0) ∧
      ∀ j, j < n → ∃ ej ej1, l[j]? = some ej ∧ ej.bin_size_x ≠ 0 ∧
        l[j + 1]? = some ej1 ∧ ej.start < ej1.start ∧
        entry_area ej1 ≤ entry_area ej ∧ entry_size ej ≠ entry_size ej1 := by
  simp only [row_ok, Bool.and_eq_true] at h
  obtain ⟨⟨hc, hhead⟩, hall⟩ := h
  obtain ⟨n, s, h1, h2, h3⟩ := row_chain_sentinel row_step l hc
  refine ⟨n, s, h1, h2, ?_, ?_, ?_⟩
  · have hmem : s ∈ l := List.getElem?_mem h1
    have := (List.all_eq_true.mp hall) s hmem
    simpa [h2] using this
  · cases l with
    | nil => simp [row_chain] at hc
    | cons e0 rest => exact ⟨e0, rest, rfl, by simpa using hhead⟩
  · intro j hj
    obtain ⟨ej, ej1, q1, q2, q3, q4⟩ := h3 j hj
    simp only [row_step, Bool.and_eq_true, decide_eq_true_eq] at q4
    exact ⟨ej, ej1, q1, q2, q3, q4.1.1, q4.1.2, q4.2⟩

/-- Every row of the colour table and of the depth table with both indices in
`0..2` exists and passes `row_ok`. -/
theorem tables_row_ok (table : List (List (List si_bin_size_map)))
    (htable : table = si_get_color_bin_size_table ∨ table = si_get_depth_bin_size_table)
    (rb se : Nat) (hrb : rb < 3) (hse : se < 3) :
    ∃ subtable, si_find_bin_size_subtable table rb se = .ok subtable ∧
      row_ok subtable = true := by
  rcases htable with rfl | rfl <;> interval_cases rb <;> interval_cases se <;>
    exact ⟨_, rfl, by decide⟩

/-- `si_find_bin_size` once the two indices and the row are known. -/
theorem si_find_bin_size_eq (sscreen : si_screen) (table : List (List (List si_bin_size_map)))
    (sum rb : Nat) (subtable : List si_bin_size_map)
    (hrb : log_num_rb_per_se sscreen = .ok rb)
    (hsub : si_find_bin_size_subtable table rb (log_num_se sscreen) = .ok subtable) :
    si_find_bin_size sscreen table sum =
      match si_find_bin_size_scan sum subtable 0 with
      | .error f => .error f
      | .ok i =>
        match subtable[i]? with
        | none => .error .out_of_bounds
        | some e => .ok ⟨e.bin_size_x, e.bin_size_y⟩ := by
  simp [si_find_bin_size, hrb, hsub]

/-- The search on a row that passes `row_ok`: it returns the size of the
entry at some index `k` up to the sentinel index `n`, whose threshold is at
most `sum`; if `k` is before the sentinel the next threshold is above `sum`;
and the thresholds up to index `k` are all at most `sum`. -/
theorem find_on_row (sscreen : si_screen) (table : List (List (List si_bin_size_map)))
    (sum rb n : Nat) (subtable : List si_bin_size_map) (s : si_bin_size_map)
    (hrb : log_num_rb_per_se sscreen = .ok rb)
    (hsub : si_find_bin_size_subtable table rb (log_num_se sscreen) = .ok subtable)
    (hok : row_ok subtable = true)
    (hs : subtable[n]? = some s) (hsx : s.bin_size_x = 0)
    (hfirst : ∃ e0 rest, subtable = e0 :: rest ∧ e0.start = 0)
    (hreal : ∀ j, j < n → ∃ ej, subtable[j]? = some ej ∧ ej.bin_size_x ≠ 0) :
    ∃ k ek, k ≤ n ∧ subtable[k]? = some ek ∧
      si_find_bin_size sscreen table sum = .ok ⟨ek.bin_size_x, ek.bin_size_y⟩ ∧
      ek.start ≤ sum ∧
      (k < n → ∃ e1, subtable[k + 1]? = some e1 ∧ sum < e1.start) ∧
      (∀ j, j < k → ∃ ej1, subtable[j + 1]? = some ej1 ∧ ej1.start ≤ sum) := by
  obtain ⟨e0, rest, rfl, h0⟩ := hfirst
  have hc : row_chain row_step (e0 :: rest) = true := by
    simp only [row_ok, Bool.and_eq_true] at hok
    exact hok.1.1
  obtain ⟨k, ek, h1, h2, h3, h4, h5⟩ := scan_exit row_step sum rest e0 0 hc (by omega)
  have hkn : k ≤ n := by
    by_contra hlt
    obtain ⟨ej, _, q1, q2, _, _⟩ := h5 n (by omega)
    rw [hs] at q1
    cases q1
    exact q2 hsx
  refine ⟨k, ek, hkn, h2, ?_, h3, ?_, ?_⟩
  · rw [si_find_bin_size_eq sscreen table sum rb _ hrb hsub, h1]
    simp [h2]
  · intro hk
    apply h4
    obtain ⟨ej, q1, q2⟩ := hreal k hk
    rw [h2] at q1
    cases q1
    exact q2
  · intro j hj
    obtain ⟨_, ej1, _, _, q3, q4⟩ := h5 j hj
    exact ⟨ej1, q3, q4⟩


/-- Thresholds do not decrease along a row up to its sentinel. -/
theorem row_start_le (l : List si_bin_size_map) (n : Nat)
    (hstep : ∀ j, j < n → ∃ ej ej1, l[j]? = some ej ∧ ej.bin_size_x ≠ 0 ∧
        l[j + 1]? = some ej1 ∧ ej.start < ej1.start ∧
        entry_area ej1 ≤ entry_area ej ∧ entry_size ej ≠ entry_size ej1)
    (a b : Nat) (ea eb : si_bin_size_map) (hab : a ≤ b) (hbn : b ≤ n)
    (ha : l[a]? = some ea) (hb : l[b]? = some eb) : ea.start ≤ eb.start := by
  have hb1 : l[a + (b - a)]? = some eb := by
    have : a + (b - a) = b := by omega
    rw [this]; exact hb
  refine row_rel_of_le (fun x y => x.start ≤ y.start) (fun _ => Nat.le_refl _)
    (fun _ _ _ h1 h2 => Nat.le_trans h1 h2) l n ?_ (b - a) a ea eb (by omega) ha hb1
  intro j hj
  obtain ⟨ej, ej1, q1, _, q3, q4, _, _⟩ := hstep j hj
  exact ⟨ej, ej1, q1, q3, Nat.le_of_lt q4⟩

/-- Areas do not increase along a row up to its sentinel. -/
theorem row_area_le (l : List si_bin_size_map) (n : Nat)
    (hstep : ∀ j, j < n → ∃ ej ej1, l[j]? = some ej ∧ ej.bin_size_x ≠ 0 ∧
        l[j + 1]? = some ej1 ∧ ej.start < ej1.start ∧
        entry_area ej1 ≤ entry_area ej ∧ entry_size ej ≠ entry_size ej1)
    (a b : Nat) (ea eb : si_bin_size_map) (hab : a ≤ b) (hbn : b ≤ n)
    (ha : l[a]? = some ea) (hb : l[b]? = some eb) : entry_area eb ≤ entry_area ea := by
  have hb1 : l[a + (b - a)]? = some eb := by
    have : a + (b - a) = b := by omega
    rw [this]; exact hb
  refine row_rel_of_le (fun x y => entry_area y ≤ entry_area x) (fun _ => Nat.le_refl _)
    (fun _ _ _ h1 h2 => Nat.le_trans h2 h1) l n ?_ (b - a) a ea eb (by omega) ha hb1
  intro j hj
  obtain ⟨ej, ej1, q1, _, q3, _, q5, _⟩ := hstep j hj
  exact ⟨ej, ej1, q1, q3, q5⟩

/-! ## Claims about the bin-size search -/

/-- C1. For the colour table and the depth table, whenever the two capability
indices lie in `0..2`, the selected row has a sentinel at some index `n`
(the first entry with `bin_size_x = 0`, whose `bin_size_y` is `0` too) and,
for every workload sum: if entry `i < n` satisfies
`subtable[i].start <= sum < subtable[i + 1].start` then `si_find_bin_size`
returns the size of entry `i`; every sum below the sentinel threshold lies in
such a bucket; a sum equal to the threshold of an entry yields the size of
that entry, which differs from the size of the entry before it; and a sum at
or above the sentinel threshold yields `(0, 0)`. -/
theorem si_find_bin_size_bucket (sscreen : si_screen)
    (table : List (List (List si_bin_size_map))) (rb : Nat)
    (htable : table = si_get_color_bin_size_table ∨ table = si_get_depth_bin_size_table)
    (hrb : log_num_rb_per_se sscreen = .ok rb) (hrb3 : rb < 3)
    (hse3 : log_num_se sscreen < 3) :
    ∃ subtable n sentinel,
      si_find_bin_size_subtable table rb (log_num_se sscreen) = .ok subtable ∧
      subtable[n]? = some sentinel ∧
      sentinel.bin_size_x = 0 ∧ sentinel.bin_size_y = 0 ∧
      (∀ j e, j < n → subtable[j]? = some e → e.bin_size_x ≠ 0) ∧
      (∀ sum i e e1, i < n → subtable[i]? = some e → subtable[i + 1]? = some e1 →
        e.start ≤ sum → sum < e1.start →
        si_find_bin_size sscreen table sum = .ok ⟨e.bin_size_x, e.bin_size_y⟩) ∧
      (∀ sum, sum < sentinel.start →
        ∃ i e e1, i < n ∧ subtable[i]? = some e ∧ subtable[i + 1]? = some e1 ∧
          e.start ≤ sum ∧ sum < e1.start) ∧
      (∀ i e, i ≤ n → subtable[i]? = some e →
        si_find_bin_size sscreen table e.start = .ok ⟨e.bin_size_x, e.bin_size_y⟩) ∧
      (∀ i e e1, i < n → subtable[i]? = some e → subtable[i + 1]? = some e1 →
        (⟨e1.bin_size_x, e1.bin_size_y⟩ : uvec2) ≠ ⟨e.bin_size_x, e.bin_size_y⟩) ∧
      (∀ sum, sentinel.start ≤ sum → si_find_bin_size sscreen table sum = .ok ⟨0, 0⟩) := by
  obtain ⟨subtable, hsub, hok⟩ := tables_row_ok table htable rb (log_num_se sscreen) hrb3 hse3
  obtain ⟨n, s, hs, hsx, hsy, hfirst, hstep⟩ := row_ok_facts subtable hok
  have hreal : ∀ j, j < n → ∃ ej, subtable[j]? = some ej ∧ ej.bin_size_x ≠ 0 := by
    intro j hj
    obtain ⟨ej, _, q1, q2, _⟩ := hstep j hj
    exact ⟨ej, q1, q2⟩
  have hfind := fun sum =>
    find_on_row sscreen table sum rb n subtable s hrb hsub hok hs hsx hfirst hreal
  -- the bucket that contains `sum` is the one the scan stops at
  have hbucket : ∀ sum i e e1, i < n → subtable[i]? = some e → subtable[i + 1]? = some e1 →
      e.start ≤ sum → sum < e1.start →
      si_find_bin_size sscreen table sum = .ok ⟨e.bin_size_x, e.bin_size_y⟩ := by
    intro sum i e e1 hi he he1 hlo hhi
    obtain ⟨k, ek, hkn, hk, hres, _, hnext, hprev⟩ := hfind sum
    have hki : k = i := by
      rcases Nat.lt_trichotomy k i with hlt | heq | hgt
      · obtain ⟨ek1, q1, q2⟩ := hnext (by omega)
        have := row_start_le subtable n hstep (k + 1) i ek1 e (by omega) (by omega) q1 he
        omega
      · exact heq
      · obtain ⟨ej1, q1, q2⟩ := hprev i hgt
        rw [he1] at q1
        cases q1
        omega
    subst hki
    rw [hk] at he
    cases he
    exact hres
  -- at or above the sentinel threshold the scan stops at the sentinel
  have hsent : ∀ sum, s.start ≤ sum → si_find_bin_size sscreen table sum = .ok ⟨0, 0⟩ := by
    intro sum hle
    obtain ⟨k, ek, hkn, hk, hres, _, hnext, _⟩ := hfind sum
    have hkn' : k = n := by
      by_contra hne
      obtain ⟨ek1, q1, q2⟩ := hnext (by omega)
      have := row_start_le subtable n hstep (k + 1) n ek1 s (by omega) (by omega) q1 hs
      omega
    subst hkn'
    rw [hs] at hk
    cases hk
    rw [hres, hsx, hsy]
  refine ⟨subtable, n, s, hsub, hs, hsx, hsy, ?_, hbucket, ?_, ?_, ?_, hsent⟩
  · intro j e hj he
    obtain ⟨ej, q1, q2⟩ := hreal j hj
    rw [he] at q1
    cases q1
    exact q2
  · intro sum hlt
    obtain ⟨k, ek, hkn, hk, _, hlo, hnext, _⟩ := hfind sum
    have hk' : k < n := by
      by_contra hge
      have hkn' : k = n := by omega
      subst hkn'
      rw [hs] at hk
      cases hk
      omega
    obtain ⟨e1, q1, q2⟩ := hnext hk'
    exact ⟨k, ek, e1, hk', hk, q1, hlo, q2⟩
  · intro i e hi he
    rcases Nat.lt_or_ge i n with hlt | hge
    · obtain ⟨ej, ej1, q1, _, q3, q4, _, _⟩ := hstep i hlt
      rw [he] at q1
      cases q1
      exact hbucket e.start i e ej1 hlt he q3 (Nat.le_refl _) q4
    · have hin : i = n := by omega
      subst hin
      have hes : e = s := (Option.some.inj (hs.symm.trans he)).symm
      rw [hes, hsent s.start (Nat.le_refl _), hsx, hsy]
  · intro i e e1 hi he he1
    obtain ⟨ej, ej1, q1, _, q3, _, _, q6⟩ := hstep i hi
    rw [he] at q1
    rw [he1] at q3
    cases q1
    cases q3
    intro heq
    exact q6 (by simpa [entry_size] using heq.symm)


/-- Witness of C1: two render backends and one shader engine select row
`[1][0]` of the colour table. -/
theorem si_find_bin_size_bucket_witness :
    log_num_rb_per_se ⟨⟨2, 1⟩, true, true⟩ = .ok 1 ∧
    log_num_se ⟨⟨2, 1⟩, true, true⟩ < 3 ∧
    ∃ subtable n sentinel,
      si_find_bin_size_subtable si_get_color_bin_size_table 1
        (log_num_se ⟨⟨2, 1⟩, true, true⟩) = .ok subtable ∧
      subtable[n]? = some sentinel ∧
      sentinel.bin_size_x = 0 ∧ sentinel.bin_size_y = 0 ∧
      (∀ j e, j < n → subtable[j]? = some e → e.bin_size_x ≠ 0) ∧
      (∀ sum i e e1, i < n → subtable[i]? = some e → subtable[i + 1]? = some e1 →
        e.start ≤ sum → sum < e1.start →
        si_find_bin_size ⟨⟨2, 1⟩, true, true⟩ si_get_color_bin_size_table sum =
          .ok ⟨e.bin_size_x, e.bin_size_y⟩) ∧
      (∀ sum, sum < sentinel.start →
        ∃ i e e1, i < n ∧ subtable[i]? = some e ∧ subtable[i + 1]? = some e1 ∧
          e.start ≤ sum ∧ sum < e1.start) ∧
      (∀ i e, i ≤ n → subtable[i]? = some e →
        si_find_bin_size ⟨⟨2, 1⟩, true, true⟩ si_get_color_bin_size_table e.start =
          .ok ⟨e.bin_size_x, e.bin_size_y⟩) ∧
      (∀ i e e1, i < n → subtable[i]? = some e → subtable[i + 1]? = some e1 →
        (⟨e1.bin_size_x, e1.bin_size_y⟩ : uvec2) ≠ ⟨e.bin_size_x, e.bin_size_y⟩) ∧
      (∀ sum, sentinel.start ≤ sum →
        si_find_bin_size ⟨⟨2, 1⟩, true, true⟩ si_get_color_bin_size_table sum = .ok ⟨0, 0⟩) :=
  ⟨by decide, by decide,
    si_find_bin_size_bucket ⟨⟨2, 1⟩, true, true⟩ si_get_color_bin_size_table 1 (Or.inl rfl)
      (by decide) (by decide) (by decide)⟩

/-- C2. For the colour table and the depth table, whenever the two capability
indices lie in `0..2` and `s1 <= s2`, both searches return a size and the
area `x * y` returned for `s2` is at most the area returned for `s1`. -/
theorem si_find_bin_size_area_antitone (sscreen : si_screen)
    (table : List (List (List si_bin_size_map))) (rb s1 s2 : Nat)
    (htable : table = si_get_color_bin_size_table ∨ table = si_get_depth_bin_size_table)
    (hrb : log_num_rb_per_se sscreen = .ok rb) (hrb3 : rb < 3)
    (hse3 : log_num_se sscreen < 3) (h12 : s1 ≤ s2) :
    ∃ b1 b2, si_find_bin_size sscreen table s1 = .ok b1 ∧
      si_find_bin_size sscreen table s2 = .ok b2 ∧ b2.x * b2.y ≤ b1.x * b1.y := by
  obtain ⟨subtable, hsub, hok⟩ := tables_row_ok table htable rb (log_num_se sscreen) hrb3 hse3
  obtain ⟨n, s, hs, hsx, _, hfirst, hstep⟩ := row_ok_facts subtable hok
  have hreal : ∀ j, j < n → ∃ ej, subtable[j]? = some ej ∧ ej.bin_size_x ≠ 0 := by
    intro j hj
    obtain ⟨ej, _, q1, q2, _⟩ := hstep j hj
    exact ⟨ej, q1, q2⟩
  obtain ⟨k1, e1, _, hk1, hres1, _, _, hprev1⟩ :=
    find_on_row sscreen table s1 rb n subtable s hrb hsub hok hs hsx hfirst hreal
  obtain ⟨k2, e2, hkn2, hk2, hres2, _, hnext2, _⟩ :=
    find_on_row sscreen table s2 rb n subtable s hrb hsub hok hs hsx hfirst hreal
  have hk : k1 ≤ k2 := by
    by_contra hlt
    obtain ⟨ea, q1, q2⟩ := hprev1 k2 (by omega)
    obtain ⟨eb, q3, q4⟩ := hnext2 (by omega)
    rw [q1] at q3
    cases q3
    omega
  have harea := row_area_le subtable n hstep k1 k2 e1 e2 hk hkn2 hk1 hk2
  exact ⟨_, _, hres1, hres2, harea⟩

/-- Witness of C2: row `[2][2]` of the depth table (sixteen render backends,
four shader engines) at the sums `4` and `24`. -/
theorem si_find_bin_size_area_antitone_witness :
    log_num_rb_per_se ⟨⟨16, 4⟩, true, true⟩ = .ok 2 ∧
    log_num_se ⟨⟨16, 4⟩, true, true⟩ < 3 ∧
    ∃ b1 b2, si_find_bin_size ⟨⟨16, 4⟩, true, true⟩ si_get_depth_bin_size_table 4 = .ok b1 ∧
      si_find_bin_size ⟨⟨16, 4⟩, true, true⟩ si_get_depth_bin_size_table 24 = .ok b2 ∧
      b2.x * b2.y ≤ b1.x * b1.y :=
  ⟨by decide, by decide,
    si_find_bin_size_area_antitone ⟨⟨16, 4⟩, true, true⟩ si_get_depth_bin_size_table 2 4 24
      (Or.inr rfl) (by decide) (by decide) (by decide) (by decide)⟩

/-- C3. For the colour table and the depth table, whenever the two capability
indices lie in `0..2`, the size returned by `si_find_bin_size` for any sum is
the `(bin_size_x, bin_size_y)` of an entry of the selected row, and that entry
is a real entry or the sentinel: every entry before it has a non-zero
`bin_size_x`. -/
theorem si_find_bin_size_from_row (sscreen : si_screen)
    (table : List (List (List si_bin_size_map))) (rb sum : Nat)
    (htable : table = si_get_color_bin_size_table ∨ table = si_get_depth_bin_size_table)
    (hrb : log_num_rb_per_se sscreen = .ok rb) (hrb3 : rb < 3)
    (hse3 : log_num_se sscreen < 3) :
    ∃ subtable i e,
      si_find_bin_size_subtable table rb (log_num_se sscreen) = .ok subtable ∧
      subtable[i]? = some e ∧ e ∈ subtable ∧
      (∀ (j : Nat) (ej : si_bin_size_map), j < i → subtable[j]? = some ej →
        ej.bin_size_x ≠ 0) ∧
      si_find_bin_size sscreen table sum = .ok ⟨e.bin_size_x, e.bin_size_y⟩ := by
  obtain ⟨subtable, hsub, hok⟩ := tables_row_ok table htable rb (log_num_se sscreen) hrb3 hse3
  obtain ⟨n, s, hs, hsx, _, hfirst, hstep⟩ := row_ok_facts subtable hok
  have hreal : ∀ j, j < n → ∃ ej, subtable[j]? = some ej ∧ ej.bin_size_x ≠ 0 := by
    intro j hj
    obtain ⟨ej, _, q1, q2, _⟩ := hstep j hj
    exact ⟨ej, q1, q2⟩
  obtain ⟨k, ek, hkn, hk, hres, _, _, _⟩ :=
    find_on_row sscreen table sum rb n subtable s hrb hsub hok hs hsx hfirst hreal
  refine ⟨subtable, k, ek, hsub, hk, List.getElem?_mem hk, ?_, hres⟩
  intro j ej hj hej
  obtain ⟨ej', q1, q2⟩ := hreal j (by omega)
  rw [hej] at q1
  cases q1
  exact q2

/-- Witness of C3: row `[0][2]` of the colour table (four render backends,
four shader engines) at the sum `6`. -/
theorem si_find_bin_size_from_row_witness :
    log_num_rb_per_se ⟨⟨4, 4⟩, true, true⟩ = .ok 0 ∧
    log_num_se ⟨⟨4, 4⟩, true, true⟩ < 3 ∧
    ∃ subtable i e,
      si_find_bin_size_subtable si_get_color_bin_size_table 0
        (log_num_se ⟨⟨4, 4⟩, true, true⟩) = .ok subtable ∧
      subtable[i]? = some e ∧ e ∈ subtable ∧
      (∀ (j : Nat) (ej : si_bin_size_map), j < i → subtable[j]? = some ej →
        ej.bin_size_x ≠ 0) ∧
      si_find_bin_size ⟨⟨4, 4⟩, true, true⟩ si_get_color_bin_size_table 6 =
        .ok ⟨e.bin_size_x, e.bin_size_y⟩ :=
  ⟨by decide, by decide,
    si_find_bin_size_from_row ⟨⟨4, 4⟩, true, true⟩ si_get_color_bin_size_table 0 6
      (Or.inl rfl) (by decide) (by decide) (by decide)⟩


/-- Every pair of indices in `0..2` is the pair of capability indices of some
screen, so the claims about in-range screens cover all nine rows of a table. -/
theorem capability_indices_reachable (rb se : Nat) (hrb : rb < 3) (hse : se < 3) :
    ∃ sscreen : si_screen, log_num_rb_per_se sscreen = .ok rb ∧ log_num_se sscreen = se := by
  refine ⟨⟨⟨2 ^ rb * 2 ^ se, 2 ^ se⟩, true, true⟩, ?_, ?_⟩ <;>
    interval_cases rb <;> interval_cases se <;> decide

/-! ## Claims about the estimators -/

/-- `si_find_bin_size` reads nothing of the screen but `info`. -/
theorem si_find_bin_size_info (sscreen : si_screen) (table : List (List (List si_bin_size_map)))
    (sum : Nat) :
    si_find_bin_size sscreen table sum = si_find_bin_size ⟨sscreen.info, true, true⟩ table sum :=
  rfl

/-- With no colour target enabled the loop over the colour buffers leaves the
running total unchanged. -/
theorem si_get_color_bin_size_bpp_zero_mask (fb : pipe_framebuffer_state) :
    ∀ (n i sum : Nat), si_get_color_bin_size_bpp fb 0 n i sum = .ok sum := by
  intro n
  induction n with
  | zero => intro i sum; rfl
  | succ n ih =>
    intro i sum
    rw [si_get_color_bin_size_bpp]
    simp [ih]

/-- Counterexample to C4 as stated: in scenario 1 the colour bin size is
`(128, 128)`, the first entry of row `[1][0]` of the colour table, and not
`(128, 512)`. -/
theorem scenario1_color_bin_size_is_not_128x512 :
    scenario1_context.screen.info = ⟨2, 1⟩ ∧
    si_get_color_bin_size_sum scenario1_context 0 = .ok 0 ∧
    si_get_color_bin_size scenario1_context 0 = .ok ⟨128, 128⟩ ∧
    si_get_color_bin_size scenario1_context 0 ≠ .ok ⟨128, 512⟩ := by
  decide

/-- C4, amended. With two render backends and one shader engine, a colour
workload sum of `0` gives the colour bin size `(128, 128)`; and when no colour
target is enabled the workload sum is `0`, so the colour bin size is
`(128, 128)`. -/
theorem si_get_color_bin_size_scenario1 (sctx : si_context) (cb : Nat)
    (hrb : sctx.screen.info.num_render_backends = 2) (hse : sctx.screen.info.max_se = 1) :
    (si_get_color_bin_size_sum sctx cb = .ok 0 →
      si_get_color_bin_size sctx cb = .ok ⟨128, 128⟩) ∧
    si_get_color_bin_size_sum sctx 0 = .ok 0 ∧
    si_get_color_bin_size sctx 0 = .ok ⟨128, 128⟩ := by
  have hinfo : sctx.screen.info = ⟨2, 1⟩ := by
    cases hi : sctx.screen.info with
    | mk a b => rw [hi] at hrb hse; simp only at hrb hse; rw [hrb, hse]
  have hfind : si_find_bin_size sctx.screen si_get_color_bin_size_table 0 = .ok ⟨128, 128⟩ := by
    rw [si_find_bin_size_info, hinfo]
    decide
  have hsum : si_get_color_bin_size_sum sctx 0 = .ok 0 := by
    simp only [si_get_color_bin_size_sum, si_get_color_bin_size_bpp_zero_mask]
    split_ifs <;> simp
  refine ⟨?_, hsum, ?_⟩
  · intro h
    simp only [si_get_color_bin_size, h, hfind]
  · simp only [si_get_color_bin_size, hsum, hfind]

/-- Witness of C4, amended, at scenario 1 with the enabled mask `0`. -/
theorem si_get_color_bin_size_scenario1_witness :
    scenario1_context.screen.info.num_render_backends = 2 ∧
    scenario1_context.screen.info.max_se = 1 ∧
    (si_get_color_bin_size_sum scenario1_context 0 = .ok 0 →
      si_get_color_bin_size scenario1_context 0 = .ok ⟨128, 128⟩) ∧
    si_get_color_bin_size_sum scenario1_context 0 = .ok 0 ∧
    si_get_color_bin_size scenario1_context 0 = .ok ⟨128, 128⟩ :=
  ⟨by decide, by decide,
    si_get_color_bin_size_scenario1 scenario1_context 0 (by decide) (by decide)⟩

/-- C5. When no depth buffer is bound, or when the depth test and the stencil
test are both disabled, `si_get_depth_bin_size` returns `(512, 512)`, whatever
the screen capabilities (also those for which a table lookup would fault),
the sample counts and the remaining state are. -/
theorem si_get_depth_bin_size_unconstrained (sctx : si_context)
    (h : sctx.framebuffer.state.zsbuf = none ∨
      ∃ dsa, sctx.queued_named_dsa = some dsa ∧ dsa.depth_enabled = false ∧
        dsa.stencil_enabled = false) :
    si_get_depth_bin_size sctx = .ok ⟨512, 512⟩ := by
  rcases h with h | ⟨dsa, hdsa, hd, hs⟩
  · simp [si_get_depth_bin_size, h]
  · cases hz : sctx.framebuffer.state.zsbuf with
    | none => simp [si_get_depth_bin_size, hz]
    | some tex => simp [si_get_depth_bin_size, hz, hdsa, hd, hs]


/-- Witness of C5: a depth buffer is bound, both tests are off, and the screen
is one on which a lookup in the depth table would fault. -/
theorem si_get_depth_bin_size_unconstrained_witness :
    (no_tests_context.framebuffer.state.zsbuf = none ∨
      ∃ dsa, no_tests_context.queued_named_dsa = some dsa ∧ dsa.depth_enabled = false ∧
        dsa.stencil_enabled = false) ∧
    si_find_bin_size no_tests_context.screen si_get_depth_bin_size_table 0 =
      .error .div_by_zero ∧
    si_get_depth_bin_size no_tests_context = .ok ⟨512, 512⟩ :=
  ⟨Or.inr ⟨⟨false, false, true⟩, rfl, rfl, rfl⟩, by decide,
    si_get_depth_bin_size_unconstrained no_tests_context
      (Or.inr ⟨⟨false, false, true⟩, rfl, rfl, rfl⟩)⟩

/-! ## Claims about the decision procedure -/

/-- `si_emit_dpbb_state` on a snapshot that passes the generation assertion,
the eligibility gate and the inefficiency gate: the result is decided by the
bin size. -/
theorem si_emit_dpbb_state_past_gates (sctx : si_context) (blend : si_state_blend)
    (dsa : si_state_dsa)
    (hclass : GFX9 ≤ sctx.chip_class) (hallowed : sctx.screen.dpbb_allowed = true)
    (hblend : sctx.queued_named_blend = some blend) (hdsa : sctx.queued_named_dsa = some dsa)
    (hforce : sctx.dpbb_force_off = false)
    (hgate : (ps_can_kill sctx.ps_db_shader_control blend &&
      db_can_reject_z_trivially sctx.ps_db_shader_control &&
      sctx.framebuffer.state.zsbuf.isSome && dsa.db_can_write) = false) :
    si_emit_dpbb_state sctx =
      match si_emit_dpbb_state_bin_size sctx blend with
      | .error f => .error f
      | .ok bin_size =>
        if bin_size.x = 0 ∨ bin_size.y = 0 then .ok si_emit_dpbb_disable
        else
          match si_emit_dpbb_state_tunables sctx.family with
          | .error f => .error f
          | .ok t =>
            .ok
              { binner_cntl_0 :=
                  { BINNING_MODE := V_028C44.BINNING_ALLOWED
                    BIN_SIZE_X := bool_to_uint (bin_size.x == 16)
                    BIN_SIZE_Y := bool_to_uint (bin_size.y == 16)
                    BIN_SIZE_X_EXTEND := bin_size_extend bin_size.x
                    BIN_SIZE_Y_EXTEND := bin_size_extend bin_size.y
                    CONTEXT_STATES_PER_BIN := t.1
                    PERSISTENT_STATES_PER_BIN := t.2.1
                    DISABLE_START_OF_PRIM := bool_to_uint (si_emit_dpbb_state_dfsm sctx blend).2
                    FPOVS_PER_BATCH := t.2.2
                    OPTIMAL_BIN_SELECTION := 1 }
                dfsm_control :=
                  { PUNCHOUT_MODE := (si_emit_dpbb_state_dfsm sctx blend).1
                    POPS_DRAIN_PS_ON_OVERLAP := 1 } } := by
  have hc : ¬ sctx.chip_class < GFX9 := by omega
  simp only [si_emit_dpbb_state, hc, if_false, hallowed, hblend, hdsa, hforce, hgate]
  cases hb : si_emit_dpbb_state_bin_size sctx blend with
  | error f => rfl
  | ok bin_size =>
    by_cases hz : bin_size.x = 0 ∨ bin_size.y = 0
    · simp [hz]
    · cases ht : si_emit_dpbb_state_tunables sctx.family with
      | error f => simp [hz]
      | ok t => simp [hz]

/-- C6. On every snapshot that passes the generation assertion and the
eligibility gate (binning allowed, blend and depth-stencil state present, no
force-off), if the pixel shader can kill (kill, mask export, coverage-to-mask
or blend alpha-to-coverage), the depth block can reject trivially (no Z
export, or conservative Z export, or depth before shader), a depth buffer is
bound and depth writes are permitted, then `si_emit_dpbb_state` produces the
fixed disable values: word A has the legacy (binning disabled) mode and
`DISABLE_START_OF_PRIM = 1` with every other field `0`, and word B has the
punch-out mode forced off and `POPS_DRAIN_PS_ON_OVERLAP = 1`. -/
theorem si_emit_dpbb_state_inefficient (sctx : si_context) (blend : si_state_blend)
    (dsa : si_state_dsa)
    (hclass : GFX9 ≤ sctx.chip_class) (hallowed : sctx.screen.dpbb_allowed = true)
    (hblend : sctx.queued_named_blend = some blend) (hdsa : sctx.queued_named_dsa = some dsa)
    (hforce : sctx.dpbb_force_off = false)
    (hkill : sctx.ps_db_shader_control.KILL_ENABLE = true ∨
      sctx.ps_db_shader_control.MASK_EXPORT_ENABLE = true ∨
      sctx.ps_db_shader_control.COVERAGE_TO_MASK_ENABLE = true ∨
      blend.alpha_to_coverage = true)
    (hreject : sctx.ps_db_shader_control.Z_EXPORT_ENABLE = false ∨
      sctx.ps_db_shader_control.CONSERVATIVE_Z_EXPORT ≠ 0 ∨
      sctx.ps_db_shader_control.DEPTH_BEFORE_SHADER = true)
    (hzsbuf : sctx.framebuffer.state.zsbuf ≠ none) (hwrite : dsa.db_can_write = true) :
    si_emit_dpbb_state sctx = .ok
      { binner_cntl_0 :=
          { BINNING_MODE := V_028C44.DISABLE_BINNING_USE_LEGACY_SC
            BIN_SIZE_X := 0
            BIN_SIZE_Y := 0
            BIN_SIZE_X_EXTEND := 0
            BIN_SIZE_Y_EXTEND := 0
            CONTEXT_STATES_PER_BIN := 0
            PERSISTENT_STATES_PER_BIN := 0
            DISABLE_START_OF_PRIM := 1
            FPOVS_PER_BATCH := 0
            OPTIMAL_BIN_SELECTION := 0 }
        dfsm_control :=
          { PUNCHOUT_MODE := V_028060.FORCE_OFF
            POPS_DRAIN_PS_ON_OVERLAP := 1 } } := by
  have hc : ¬ sctx.chip_class < GFX9 := by omega
  have h1 : ps_can_kill sctx.ps_db_shader_control blend = true := by
    simp only [ps_can_kill, Bool.or_eq_true]
    tauto
  have h2 : db_can_reject_z_trivially sctx.ps_db_shader_control = true := by
    simp only [db_can_reject_z_trivially, Bool.or_eq_true, Bool.not_eq_true', bne_iff_ne]
    tauto
  have h3 : sctx.framebuffer.state.zsbuf.isSome = true := by
    cases hz : sctx.framebuffer.state.zsbuf with
    | none => exact absurd hz hzsbuf
    | some _ => rfl
  simp only [si_emit_dpbb_state, hc, if_false, hallowed, hblend, hdsa, hforce, h1, h2, h3,
    hwrite, Bool.and_self, if_true]
  rfl

/-- Witness of C6 at scenario 3. -/
theorem si_emit_dpbb_state_inefficient_witness :
    si_emit_dpbb_state scenario3_context = .ok
      { binner_cntl_0 :=
          { BINNING_MODE := V_028C44.DISABLE_BINNING_USE_LEGACY_SC
            BIN_SIZE_X := 0
            BIN_SIZE_Y := 0
            BIN_SIZE_X_EXTEND := 0
            BIN_SIZE_Y_EXTEND := 0
            CONTEXT_STATES_PER_BIN := 0
            PERSISTENT_STATES_PER_BIN := 0
            DISABLE_START_OF_PRIM := 1
            FPOVS_PER_BATCH := 0
            OPTIMAL_BIN_SELECTION := 0 }
        dfsm_control :=
          { PUNCHOUT_MODE := V_028060.FORCE_OFF
            POPS_DRAIN_PS_ON_OVERLAP := 1 } } :=
  si_emit_dpbb_state_inefficient scenario3_context ⟨false, 0xf, 0⟩ ⟨true, false, true⟩
    (by decide) rfl rfl rfl rfl (Or.inl rfl) (Or.inl rfl) (by decide) rfl


/-- The two ways in which `si_emit_dpbb_state` produces register values: the
fixed disable values, or the values computed after both gates were passed
with a non-zero bin size and a chip family that the `switch` knows. -/
theorem si_emit_dpbb_state_ok_cases (sctx : si_context) (r : dpbb_regs)
    (h : si_emit_dpbb_state sctx = .ok r) :
    r = si_emit_dpbb_disable ∨
    ∃ blend dsa bin_size t,
      GFX9 ≤ sctx.chip_class ∧ sctx.screen.dpbb_allowed = true ∧
      sctx.queued_named_blend = some blend ∧ sctx.queued_named_dsa = some dsa ∧
      sctx.dpbb_force_off = false ∧
      (ps_can_kill sctx.ps_db_shader_control blend &&
        db_can_reject_z_trivially sctx.ps_db_shader_control &&
        sctx.framebuffer.state.zsbuf.isSome && dsa.db_can_write) = false ∧
      si_emit_dpbb_state_bin_size sctx blend = .ok bin_size ∧
      bin_size.x ≠ 0 ∧ bin_size.y ≠ 0 ∧
      si_emit_dpbb_state_tunables sctx.family = .ok t ∧
      r =
        { binner_cntl_0 :=
            { BINNING_MODE := V_028C44.BINNING_ALLOWED
              BIN_SIZE_X := bool_to_uint (bin_size.x == 16)
              BIN_SIZE_Y := bool_to_uint (bin_size.y == 16)
              BIN_SIZE_X_EXTEND := bin_size_extend bin_size.x
              BIN_SIZE_Y_EXTEND := bin_size_extend bin_size.y
              CONTEXT_STATES_PER_BIN := t.1
              PERSISTENT_STATES_PER_BIN := t.2.1
              DISABLE_START_OF_PRIM := bool_to_uint (si_emit_dpbb_state_dfsm sctx blend).2
              FPOVS_PER_BATCH := t.2.2
              OPTIMAL_BIN_SELECTION := 1 }
          dfsm_control :=
            { PUNCHOUT_MODE := (si_emit_dpbb_state_dfsm sctx blend).1
              POPS_DRAIN_PS_ON_OVERLAP := 1 } } := by
  by_cases hc : sctx.chip_class < GFX9
  · simp [si_emit_dpbb_state, hc] at h
  · have hdis : si_emit_dpbb_state sctx = .ok si_emit_dpbb_disable → r = si_emit_dpbb_disable := by
      intro h'
      rw [h] at h'
      exact Except.ok.inj h'
    cases ha : sctx.screen.dpbb_allowed with
    | false => exact Or.inl (hdis (by simp [si_emit_dpbb_state, hc, ha]))
    | true =>
      cases hb : sctx.queued_named_blend with
      | none => exact Or.inl (hdis (by simp [si_emit_dpbb_state, hc, ha, hb]))
      | some blend =>
        cases hd : sctx.queued_named_dsa with
        | none => exact Or.inl (hdis (by simp [si_emit_dpbb_state, hc, ha, hb, hd]))
        | some dsa =>
          cases hf : sctx.dpbb_force_off with
          | true => exact Or.inl (hdis (by simp [si_emit_dpbb_state, hc, ha, hb, hd, hf]))
          | false =>
            cases hg : (ps_can_kill sctx.ps_db_shader_control blend &&
              db_can_reject_z_trivially sctx.ps_db_shader_control &&
              sctx.framebuffer.state.zsbuf.isSome && dsa.db_can_write) with
            | true =>
              exact Or.inl (hdis (by simp [si_emit_dpbb_state, hc, ha, hb, hd, hf, hg]))
            | false =>
              have hpast := si_emit_dpbb_state_past_gates sctx blend dsa (by omega) ha hb hd hf hg
              rw [hpast] at h
              cases hbin : si_emit_dpbb_state_bin_size sctx blend with
              | error f => simp [hbin] at h
              | ok bin_size =>
                by_cases hz : bin_size.x = 0 ∨ bin_size.y = 0
                · simp only [hbin, hz, if_true] at h
                  exact Or.inl (Except.ok.inj h).symm
                · cases ht : si_emit_dpbb_state_tunables sctx.family with
                  | error f => simp [hbin, hz, ht] at h
                  | ok t =>
                    simp only [hbin, hz, ht, if_false] at h
                    have hxy : bin_size.x ≠ 0 ∧ bin_size.y ≠ 0 := by
                      constructor <;> intro h0 <;> exact hz (by simp [h0])
                    exact Or.inr ⟨blend, dsa, bin_size, t, by omega, rfl, rfl, rfl, rfl, hg,
                      hbin, hxy.1, hxy.2, rfl, (Except.ok.inj h).symm⟩


/-- Counterexample to C7 as stated: with a chip family outside the `switch`
and the force-off flag set, `si_emit_dpbb_state` raises nothing and produces
the fixed disable values. -/
theorem other_family_force_off_is_disabled :
    force_off_other_family_context.family = .CHIP_OTHER ∧
    si_emit_dpbb_state force_off_other_family_context = .ok si_emit_dpbb_disable := by
  decide

/-- C7, amended. On a snapshot whose chip family is none of Vega10, Vega12 and
Raven, `si_emit_dpbb_state` never produces register values other than the
fixed disable values; and when the evaluation reaches the `switch` on the
family (the generation assertion, the eligibility gate and the inefficiency
gate are passed and the chosen bin size has no zero dimension) it stops at
`assert(0)` and produces no register values. -/
theorem si_emit_dpbb_state_other_family (sctx : si_context)
    (hfam : sctx.family = .CHIP_OTHER) :
    (∀ r, si_emit_dpbb_state sctx = .ok r → r = si_emit_dpbb_disable) ∧
    (∀ blend dsa bin_size,
      GFX9 ≤ sctx.chip_class → sctx.screen.dpbb_allowed = true →
      sctx.queued_named_blend = some blend → sctx.queued_named_dsa = some dsa →
      sctx.dpbb_force_off = false →
      (ps_can_kill sctx.ps_db_shader_control blend &&
        db_can_reject_z_trivially sctx.ps_db_shader_control &&
        sctx.framebuffer.state.zsbuf.isSome && dsa.db_can_write) = false →
      si_emit_dpbb_state_bin_size sctx blend = .ok bin_size →
      bin_size.x ≠ 0 → bin_size.y ≠ 0 →
      si_emit_dpbb_state sctx = .error .assert_failed) := by
  constructor
  · intro r h
    rcases si_emit_dpbb_state_ok_cases sctx r h with h' | ⟨_, _, _, t, _, _, _, _, _, _, _, _, _, ht, _⟩
    · exact h'
    · rw [hfam] at ht
      simp [si_emit_dpbb_state_tunables] at ht
  · intro blend dsa bin_size hclass hallowed hblend hdsa hforce hgate hbin hx hy
    rw [si_emit_dpbb_state_past_gates sctx blend dsa hclass hallowed hblend hdsa hforce hgate,
      hbin, hfam]
    simp [hx, hy, si_emit_dpbb_state_tunables]

/-- Witness of C7, amended: a snapshot of another chip family that reaches the
`switch` with the bin size `(32, 128)`. -/
theorem si_emit_dpbb_state_other_family_witness :
    other_family_context.family = .CHIP_OTHER ∧
    si_emit_dpbb_state_bin_size other_family_context ⟨false, 0xf, 0⟩ = .ok ⟨32, 128⟩ ∧
    si_emit_dpbb_state other_family_context = .error .assert_failed :=
  ⟨rfl, by decide,
    (si_emit_dpbb_state_other_family other_family_context rfl).2 ⟨false, 0xf, 0⟩
      ⟨false, false, false⟩ ⟨32, 128⟩ (by decide) rfl rfl rfl rfl (by decide) (by decide)
      (by decide) (by decide)⟩

/-- Counterexample to C8 as stated: the colour candidate `(256, 256)` and the
depth candidate `(128, 512)` have equal areas and the chosen bin size is the
depth candidate, which is also the size the emitted word A encodes (size
extends `2` and `4`). -/
theorem equal_area_choice_is_not_color :
    si_get_color_bin_size equal_area_context
      (cb_target_enabled_4bit equal_area_context ⟨false, 0, 0⟩) = .ok ⟨256, 256⟩ ∧
    si_get_depth_bin_size equal_area_context = .ok ⟨128, 512⟩ ∧
    si_emit_dpbb_state_bin_size equal_area_context ⟨false, 0, 0⟩ = .ok ⟨128, 512⟩ ∧
    si_emit_dpbb_state_bin_size equal_area_context ⟨false, 0, 0⟩ ≠ .ok ⟨256, 256⟩ ∧
    si_emit_dpbb_state equal_area_context = .ok
      { binner_cntl_0 :=
          { BINNING_MODE := V_028C44.BINNING_ALLOWED
            BIN_SIZE_X := 0
            BIN_SIZE_Y := 0
            BIN_SIZE_X_EXTEND := 2
            BIN_SIZE_Y_EXTEND := 4
            CONTEXT_STATES_PER_BIN := 5
            PERSISTENT_STATES_PER_BIN := 31
            DISABLE_START_OF_PRIM := 1
            FPOVS_PER_BATCH := 63
            OPTIMAL_BIN_SELECTION := 1 }
        dfsm_control :=
          { PUNCHOUT_MODE := V_028060.FORCE_OFF
            POPS_DRAIN_PS_ON_OVERLAP := 1 } } := by
  decide

/-- C8, amended. Whenever the colour bin area equals the depth bin area, the
bin size chosen by `si_emit_dpbb_state` is the depth bin size (the second
computed candidate). -/
theorem si_emit_dpbb_state_bin_size_tie (sctx : si_context) (blend : si_state_blend)
    (color_bin_size depth_bin_size : uvec2)
    (hcolor : si_get_color_bin_size sctx (cb_target_enabled_4bit sctx blend) =
      .ok color_bin_size)
    (hdepth : si_get_depth_bin_size sctx = .ok depth_bin_size)
    (harea : color_bin_size.x * color_bin_size.y = depth_bin_size.x * depth_bin_size.y) :
    si_emit_dpbb_state_bin_size sctx blend = .ok depth_bin_size := by
  simp [si_emit_dpbb_state_bin_size, hcolor, hdepth, bin_size_select, harea]

/-- Witness of C8, amended, at the snapshot of the counterexample. -/
theorem si_emit_dpbb_state_bin_size_tie_witness :
    si_get_color_bin_size equal_area_context
      (cb_target_enabled_4bit equal_area_context ⟨false, 0, 0⟩) = .ok ⟨256, 256⟩ ∧
    si_get_depth_bin_size equal_area_context = .ok ⟨128, 512⟩ ∧
    si_emit_dpbb_state_bin_size equal_area_context ⟨false, 0, 0⟩ = .ok ⟨128, 512⟩ :=
  ⟨by decide, by decide,
    si_emit_dpbb_state_bin_size_tie equal_area_context ⟨false, 0, 0⟩ ⟨256, 256⟩ ⟨128, 512⟩
      (by decide) (by decide) (by decide)⟩


/-- The condition `dfsm_preferred`, spelled out on the fields of the
snapshot. -/
theorem dfsm_preferred_iff (sctx : si_context) (blend : si_state_blend) :
    dfsm_preferred sctx blend = true ↔
      (sctx.screen.dfsm_allowed = true ∧
      ¬ (sctx.chip_class = GFX9 ∧
          ∃ tex, sctx.framebuffer.state.zsbuf = some tex ∧
            max 1 tex.nr_samples ≠ sctx.framebuffer.nr_samples) ∧
      sctx.framebuffer.colorbuf_enabled_4bit &&& blend.cb_target_enabled_4bit ≠ 0 ∧
      sctx.ps_db_shader_control.KILL_ENABLE = false ∧
      sctx.ps_db_shader_control.EXEC_ON_HIER_FAIL = false ∧
      sctx.ps_db_shader_control.EXEC_ON_NOOP = false ∧
      sctx.ps_db_shader_control.Z_ORDER = V_02880C_EARLY_Z_THEN_LATE_Z) := by
  have hbug : zs_eqaa_dfsm_bug sctx = true ↔
      (sctx.chip_class = GFX9 ∧
        ∃ tex, sctx.framebuffer.state.zsbuf = some tex ∧
          max 1 tex.nr_samples ≠ sctx.framebuffer.nr_samples) := by
    cases hz : sctx.framebuffer.state.zsbuf with
    | none => simp [zs_eqaa_dfsm_bug, hz]
    | some tex =>
      simp only [zs_eqaa_dfsm_bug, hz, Bool.and_eq_true, beq_iff_eq, bne_iff_ne, ne_eq,
        Option.some.injEq, exists_eq_left']
      constructor
      · rintro ⟨h1, h2⟩
        exact ⟨h1, fun h => h2 h.symm⟩
      · rintro ⟨h1, h2⟩
        exact ⟨h1, fun h => h2 h.symm⟩
  simp only [dfsm_preferred, Bool.and_eq_true, Bool.not_eq_true', bne_iff_ne, ne_eq,
    beq_iff_eq, cb_target_enabled_4bit, ← hbug, Bool.not_eq_true]
  tauto

/-- Counterexample to C9 as stated: the snapshot reaches step 4 with the bin
size `(16, 128)`; the generation is `GFX9`, a depth buffer is bound and its
sample count `4` differs from the colour sample count
`framebuffer.nr_color_samples = 2`, so the stated condition fails; yet the
punch-out mode is `AUTO`, in the emitted word B too, because the source
compares with `framebuffer.nr_samples = 4`. -/
theorem eqaa_punchout_is_auto :
    si_emit_dpbb_state_bin_size eqaa_context ⟨false, 0xf, 0⟩ = .ok ⟨16, 128⟩ ∧
    eqaa_context.chip_class = GFX9 ∧
    eqaa_context.framebuffer.state.zsbuf = some ⟨4, false, 4⟩ ∧
    max 1 (si_texture.mk 4 false 4).nr_samples ≠ eqaa_context.framebuffer.nr_color_samples ∧
    (si_emit_dpbb_state_dfsm eqaa_context ⟨false, 0xf, 0⟩).1 = V_028060.AUTO ∧
    si_emit_dpbb_state eqaa_context = .ok
      { binner_cntl_0 :=
          { BINNING_MODE := V_028C44.BINNING_ALLOWED
            BIN_SIZE_X := 1
            BIN_SIZE_Y := 0
            BIN_SIZE_X_EXTEND := 0
            BIN_SIZE_Y_EXTEND := 2
            CONTEXT_STATES_PER_BIN := 5
            PERSISTENT_STATES_PER_BIN := 31
            DISABLE_START_OF_PRIM := 0
            FPOVS_PER_BATCH := 63
            OPTIMAL_BIN_SELECTION := 1 }
        dfsm_control :=
          { PUNCHOUT_MODE := V_028060.AUTO
            POPS_DRAIN_PS_ON_OVERLAP := 1 } } := by
  decide

/-- C9, amended. On every snapshot that reaches step 4 of `si_emit_dpbb_state`
(the generation assertion and both gates are passed and the chosen bin size
has no zero dimension), the punch-out mode is `AUTO` if and only if the screen
allows DFSM; it is not the case that the generation is `GFX9`, a depth buffer
is bound and its sample count, taken as at least `1`, differs from the sample
count `framebuffer.nr_samples` of the framebuffer (not the colour sample count
`framebuffer.nr_color_samples`); the enabled mask intersected with the blend
write mask is non-zero; shader kill is off; neither exec-on-hierarchical-Z-fail
nor exec-on-no-op is set; and the Z order is early-Z-then-late-Z. Otherwise the
mode is `FORCE_OFF`. For a chip family known to the `switch` the evaluation
produces register values and word B carries that mode. -/
theorem si_emit_dpbb_state_punchout (sctx : si_context) (blend : si_state_blend)
    (dsa : si_state_dsa) (bin_size : uvec2)
    (hclass : GFX9 ≤ sctx.chip_class) (hallowed : sctx.screen.dpbb_allowed = true)
    (hblend : sctx.queued_named_blend = some blend) (hdsa : sctx.queued_named_dsa = some dsa)
    (hforce : sctx.dpbb_force_off = false)
    (hgate : (ps_can_kill sctx.ps_db_shader_control blend &&
      db_can_reject_z_trivially sctx.ps_db_shader_control &&
      sctx.framebuffer.state.zsbuf.isSome && dsa.db_can_write) = false)
    (hbin : si_emit_dpbb_state_bin_size sctx blend = .ok bin_size)
    (hx : bin_size.x ≠ 0) (hy : bin_size.y ≠ 0) :
    ((si_emit_dpbb_state_dfsm sctx blend).1 = V_028060.AUTO ↔
      (sctx.screen.dfsm_allowed = true ∧
      ¬ (sctx.chip_class = GFX9 ∧
          ∃ tex, sctx.framebuffer.state.zsbuf = some tex ∧
            max 1 tex.nr_samples ≠ sctx.framebuffer.nr_samples) ∧
      sctx.framebuffer.colorbuf_enabled_4bit &&& blend.cb_target_enabled_4bit ≠ 0 ∧
      sctx.ps_db_shader_control.KILL_ENABLE = false ∧
      sctx.ps_db_shader_control.EXEC_ON_HIER_FAIL = false ∧
      sctx.ps_db_shader_control.EXEC_ON_NOOP = false ∧
      sctx.ps_db_shader_control.Z_ORDER = V_02880C_EARLY_Z_THEN_LATE_Z)) ∧
    ((si_emit_dpbb_state_dfsm sctx blend).1 ≠ V_028060.AUTO →
      (si_emit_dpbb_state_dfsm sctx blend).1 = V_028060.FORCE_OFF) ∧
    (sctx.family ≠ .CHIP_OTHER →
      ∃ r, si_emit_dpbb_state sctx = .ok r ∧
        r.binner_cntl_0.BINNING_MODE = V_028C44.BINNING_ALLOWED ∧
        r.dfsm_control.PUNCHOUT_MODE = (si_emit_dpbb_state_dfsm sctx blend).1) := by
  refine ⟨?_, ?_, ?_⟩
  · rw [← dfsm_preferred_iff]
    cases hp : dfsm_preferred sctx blend <;> simp [si_emit_dpbb_state_dfsm, hp]
  · cases hp : dfsm_preferred sctx blend <;> simp [si_emit_dpbb_state_dfsm, hp]
  · intro hfam
    rw [si_emit_dpbb_state_past_gates sctx blend dsa hclass hallowed hblend hdsa hforce hgate,
      hbin]
    cases hf : sctx.family with
    | CHIP_OTHER => exact absurd hf hfam
    | CHIP_VEGA10 => simp [hx, hy, si_emit_dpbb_state_tunables]
    | CHIP_VEGA12 => simp [hx, hy, si_emit_dpbb_state_tunables]
    | CHIP_RAVEN => simp [hx, hy, si_emit_dpbb_state_tunables]

/-- Witness of C9, amended, at the example snapshot, where the mode is `AUTO`. -/
theorem si_emit_dpbb_state_punchout_witness :
    si_emit_dpbb_state_bin_size example_context ⟨false, 0xf, 0⟩ = .ok ⟨32, 128⟩ ∧
    (si_emit_dpbb_state_dfsm example_context ⟨false, 0xf, 0⟩).1 = V_028060.AUTO ∧
    ∃ r, si_emit_dpbb_state example_context = .ok r ∧
      r.binner_cntl_0.BINNING_MODE = V_028C44.BINNING_ALLOWED ∧
      r.dfsm_control.PUNCHOUT_MODE = (si_emit_dpbb_state_dfsm example_context ⟨false, 0xf, 0⟩).1 :=
  ⟨by decide, by decide,
    (si_emit_dpbb_state_punchout example_context ⟨false, 0xf, 0⟩ ⟨false, false, false⟩
      ⟨32, 128⟩ (by decide) rfl rfl rfl rfl (by decide) (by decide) (by decide)
      (by decide)).2.2 (by decide)⟩

/-- C10. Whenever `si_emit_dpbb_state` produces register values whose mode is
binning allowed, the chosen bin size `(w, h)` has no zero dimension, the chip
family is Vega10, Vega12 or Raven, and word A carries: the mode binning
allowed; `BIN_SIZE_X = 1` iff `w = 16` and `BIN_SIZE_Y = 1` iff `h = 16`;
the X size extend `log2 w - 5` if `w >= 32` and `0` otherwise, and likewise
for Y from `h`; `CONTEXT_STATES_PER_BIN = 5`, `PERSISTENT_STATES_PER_BIN = 31`
and `FPOVS_PER_BATCH = 63`, within `[0, 5]`, `[0, 31]` and `[0, 255]`; the
computed `DISABLE_START_OF_PRIM` bit; and `OPTIMAL_BIN_SELECTION = 1`. Word B
carries the computed punch-out mode and `POPS_DRAIN_PS_ON_OVERLAP = 1`. -/
theorem si_emit_dpbb_state_enabled_words (sctx : si_context) (r : dpbb_regs)
    (h : si_emit_dpbb_state sctx = .ok r)
    (hmode : r.binner_cntl_0.BINNING_MODE = V_028C44.BINNING_ALLOWED) :
    ∃ blend bin_size,
      sctx.queued_named_blend = some blend ∧
      si_emit_dpbb_state_bin_size sctx blend = .ok bin_size ∧
      bin_size.x ≠ 0 ∧ bin_size.y ≠ 0 ∧
      (sctx.family = .CHIP_VEGA10 ∨ sctx.family = .CHIP_VEGA12 ∨ sctx.family = .CHIP_RAVEN) ∧
      r.binner_cntl_0 =
        { BINNING_MODE := V_028C44.BINNING_ALLOWED
          BIN_SIZE_X := if bin_size.x = 16 then 1 else 0
          BIN_SIZE_Y := if bin_size.y = 16 then 1 else 0
          BIN_SIZE_X_EXTEND := if 32 ≤ bin_size.x then util_logbase2 bin_size.x - 5 else 0
          BIN_SIZE_Y_EXTEND := if 32 ≤ bin_size.y then util_logbase2 bin_size.y - 5 else 0
          CONTEXT_STATES_PER_BIN := 5
          PERSISTENT_STATES_PER_BIN := 31
          DISABLE_START_OF_PRIM :=
            if (si_emit_dpbb_state_dfsm sctx blend).2 = true then 1 else 0
          FPOVS_PER_BATCH := 63
          OPTIMAL_BIN_SELECTION := 1 } ∧
      r.binner_cntl_0.CONTEXT_STATES_PER_BIN ≤ 5 ∧
      r.binner_cntl_0.PERSISTENT_STATES_PER_BIN ≤ 31 ∧
      r.binner_cntl_0.FPOVS_PER_BATCH ≤ 255 ∧
      r.dfsm_control =
        { PUNCHOUT_MODE := (si_emit_dpbb_state_dfsm sctx blend).1
          POPS_DRAIN_PS_ON_OVERLAP := 1 } := by
  rcases si_emit_dpbb_state_ok_cases sctx r h with
    h' | ⟨blend, dsa, bin_size, t, _, _, hblend, _, _, _, hbin, hx, hy, ht, hr⟩
  · rw [h'] at hmode
    simp [si_emit_dpbb_disable] at hmode
  · have ht' : t = (5, 31, 63) ∧
        (sctx.family = .CHIP_VEGA10 ∨ sctx.family = .CHIP_VEGA12 ∨
          sctx.family = .CHIP_RAVEN) := by
      cases hf : sctx.family <;> rw [hf] at ht <;>
        simp [si_emit_dpbb_state_tunables] at ht <;> simp [← ht]
    obtain ⟨rfl, hfam⟩ := ht'
    refine ⟨blend, bin_size, hblend, hbin, hx, hy, hfam, ?_, ?_, ?_, ?_, ?_⟩ <;>
      simp [hr, bool_to_uint, bin_size_extend]

/-- Witness of C10 at the example snapshot, whose bin size is `(32, 128)`. -/
theorem si_emit_dpbb_state_enabled_words_witness :
    ∃ blend bin_size,
      example_context.queued_named_blend = some blend ∧
      si_emit_dpbb_state_bin_size example_context blend = .ok bin_size ∧
      bin_size.x ≠ 0 ∧ bin_size.y ≠ 0 ∧
      (example_context.family = .CHIP_VEGA10 ∨ example_context.family = .CHIP_VEGA12 ∨
        example_context.family = .CHIP_RAVEN) ∧
      (⟨V_028C44.BINNING_ALLOWED, 0, 0, 0, 2, 5, 31, 0, 63, 1⟩ : PA_SC_BINNER_CNTL_0) =
        { BINNING_MODE := V_028C44.BINNING_ALLOWED
          BIN_SIZE_X := if bin_size.x = 16 then 1 else 0
          BIN_SIZE_Y := if bin_size.y = 16 then 1 else 0
          BIN_SIZE_X_EXTEND := if 32 ≤ bin_size.x then util_logbase2 bin_size.x - 5 else 0
          BIN_SIZE_Y_EXTEND := if 32 ≤ bin_size.y then util_logbase2 bin_size.y - 5 else 0
          CONTEXT_STATES_PER_BIN := 5
          PERSISTENT_STATES_PER_BIN := 31
          DISABLE_START_OF_PRIM :=
            if (si_emit_dpbb_state_dfsm example_context blend).2 = true then 1 else 0
          FPOVS_PER_BATCH := 63
          OPTIMAL_BIN_SELECTION := 1 } ∧
      (5 : Nat) ≤ 5 ∧ (31 : Nat) ≤ 31 ∧ (63 : Nat) ≤ 255 ∧
      (⟨V_028060.AUTO, 1⟩ : DB_DFSM_CONTROL) =
        { PUNCHOUT_MODE := (si_emit_dpbb_state_dfsm example_context blend).1
          POPS_DRAIN_PS_ON_OVERLAP := 1 } :=
  si_emit_dpbb_state_enabled_words example_context
    ⟨⟨V_028C44.BINNING_ALLOWED, 0, 0, 0, 2, 5, 31, 0, 63, 1⟩, ⟨V_028060.AUTO, 1⟩⟩
    (by decide) rfl


/-- Counterexample to C11 as stated: with the force-off flag set but a chip
generation below `GFX9`, the evaluation stops at the assertion of line 330 and
produces no register values. -/
theorem below_gfx9_force_off_is_assert_failure :
    below_gfx9_context.dpbb_force_off = true ∧
    below_gfx9_context.chip_class < GFX9 ∧
    si_emit_dpbb_state below_gfx9_context = .error .assert_failed := by
  decide

/-- C11, amended. On every snapshot whose chip generation is at least `GFX9`
(the assertion at the head of `si_emit_dpbb_state`), if binning is not allowed
for the screen, or the blend state is absent, or the depth-stencil state is
absent, or the force-off flag is set, then `si_emit_dpbb_state` reports no
error and produces the fixed disable values (legacy mode,
`DISABLE_START_OF_PRIM = 1`, every other field of word A `0`, punch-out forced
off, `POPS_DRAIN_PS_ON_OVERLAP = 1`), whatever the chip family, the screen
capabilities and the remaining state are. -/
theorem si_emit_dpbb_state_ineligible (sctx : si_context)
    (hclass : GFX9 ≤ sctx.chip_class)
    (h : sctx.screen.dpbb_allowed = false ∨ sctx.queued_named_blend = none ∨
      sctx.queued_named_dsa = none ∨ sctx.dpbb_force_off = true) :
    si_emit_dpbb_state sctx = .ok
      { binner_cntl_0 :=
          { BINNING_MODE := V_028C44.DISABLE_BINNING_USE_LEGACY_SC
            BIN_SIZE_X := 0
            BIN_SIZE_Y := 0
            BIN_SIZE_X_EXTEND := 0
            BIN_SIZE_Y_EXTEND := 0
            CONTEXT_STATES_PER_BIN := 0
            PERSISTENT_STATES_PER_BIN := 0
            DISABLE_START_OF_PRIM := 1
            FPOVS_PER_BATCH := 0
            OPTIMAL_BIN_SELECTION := 0 }
        dfsm_control :=
          { PUNCHOUT_MODE := V_028060.FORCE_OFF
            POPS_DRAIN_PS_ON_OVERLAP := 1 } } := by
  have hc : ¬ sctx.chip_class < GFX9 := by omega
  have hdis : si_emit_dpbb_state sctx = .ok si_emit_dpbb_disable := by
    cases ha : sctx.screen.dpbb_allowed <;> cases hb : sctx.queued_named_blend <;>
      cases hd : sctx.queued_named_dsa <;> cases hf : sctx.dpbb_force_off <;>
      simp_all [si_emit_dpbb_state]
  rw [hdis]
  rfl

/-- Witness of C11, amended: no blend state, a chip family outside the
`switch` and a screen on which a table lookup would fault. -/
theorem si_emit_dpbb_state_ineligible_witness :
    missing_blend_context.queued_named_blend = none ∧
    missing_blend_context.family = .CHIP_OTHER ∧
    si_find_bin_size missing_blend_context.screen si_get_color_bin_size_table 0 =
      .error .div_by_zero ∧
    si_emit_dpbb_state missing_blend_context = .ok
      { binner_cntl_0 :=
          { BINNING_MODE := V_028C44.DISABLE_BINNING_USE_LEGACY_SC
            BIN_SIZE_X := 0
            BIN_SIZE_Y := 0
            BIN_SIZE_X_EXTEND := 0
            BIN_SIZE_Y_EXTEND := 0
            CONTEXT_STATES_PER_BIN := 0
            PERSISTENT_STATES_PER_BIN := 0
            DISABLE_START_OF_PRIM := 1
            FPOVS_PER_BATCH := 0
            OPTIMAL_BIN_SELECTION := 0 }
        dfsm_control :=
          { PUNCHOUT_MODE := V_028060.FORCE_OFF
            POPS_DRAIN_PS_ON_OVERLAP := 1 } } :=
  ⟨rfl, rfl, by decide,
    si_emit_dpbb_state_ineligible missing_blend_context (by decide) (Or.inr (Or.inl rfl))⟩

/-- Both tables hold nine rows, laid out one after the other. -/
theorem tables_flat_length (table : List (List (List si_bin_size_map)))
    (htable : table = si_get_color_bin_size_table ∨ table = si_get_depth_bin_size_table) :
    table.flatten.length = 9 := by
  rcases htable with rfl | rfl <;> decide

/-- For both indices in `0..2` the selected row is the row `table[rb][se]` of
the nested initialiser. -/
theorem si_find_bin_size_subtable_nested (table : List (List (List si_bin_size_map)))
    (htable : table = si_get_color_bin_size_table ∨ table = si_get_depth_bin_size_table)
    (rb se : Nat) (hrb : rb < 3) (hse : se < 3) :
    ∃ grid subtable, table[rb]? = some grid ∧ grid[se]? = some subtable ∧
      si_find_bin_size_subtable table rb se = .ok subtable := by
  rcases htable with rfl | rfl <;> interval_cases rb <;> interval_cases se <;>
    exact ⟨_, _, rfl, rfl, rfl⟩

/-- Counterexample to C12 as stated. With eight render backends and eight
shader engines the indices are `0` and `3`; the address `&table[0][3][0]` is
that of row `[1][0]`, and `si_find_bin_size` silently returns sizes of that
row (`(64, 128)` at the sum `2`, where row `[0][0]` holds `(32, 128)`): no
error is reported. With eight render backends and one shader engine the index
`3` addresses memory past the table, and the evaluation is that read, not an
error of the function. -/
theorem out_of_range_index_selects_row :
    log_num_rb_per_se eight_se_screen = .ok 0 ∧
    log_num_se eight_se_screen = 3 ∧
    si_find_bin_size_subtable si_get_color_bin_size_table 0 3 =
      si_find_bin_size_subtable si_get_color_bin_size_table 1 0 ∧
    si_find_bin_size eight_se_screen si_get_color_bin_size_table 0 = .ok ⟨128, 128⟩ ∧
    si_find_bin_size eight_se_screen si_get_color_bin_size_table 2 = .ok ⟨64, 128⟩ ∧
    si_find_bin_size ⟨⟨1, 1⟩, true, true⟩ si_get_color_bin_size_table 2 = .ok ⟨32, 128⟩ ∧
    log_num_rb_per_se eight_rb_per_se_screen = .ok 3 ∧
    si_find_bin_size eight_rb_per_se_screen si_get_color_bin_size_table 0 =
      .error .out_of_bounds ∧
    si_find_bin_size eight_rb_per_se_screen si_get_color_bin_size_table 0 ≠
      .error .assert_failed := by
  decide

/-- C12, amended. For the colour table and the depth table and every screen
for which `log_num_rb_per_se > 2` or `log_num_se > 2`, `si_find_bin_size`
validates nothing and reports no error of its own. With `rb` and `se` the two
indices it addresses row `rb * 3 + se` of the nine contiguous rows. When
`rb * 3 + se < 9` that is the in-range row
`[(rb * 3 + se) / 3][(rb * 3 + se) % 3]` of a later grid than `rb`, and the
search silently returns the size that a screen with those two in-range
indices gets for the same sum. When
`rb * 3 + se >= 9` the address is past the table (undefined in C,
`out_of_bounds` in the embedding). No assertion stops the evaluation. -/
theorem si_find_bin_size_out_of_range (sscreen : si_screen)
    (table : List (List (List si_bin_size_map))) (sum rb : Nat)
    (htable : table = si_get_color_bin_size_table ∨ table = si_get_depth_bin_size_table)
    (hrb : log_num_rb_per_se sscreen = .ok rb)
    (hrange : 2 < rb ∨ 2 < log_num_se sscreen) :
    (rb * 3 + log_num_se sscreen < 9 →
      ∃ subtable size,
        si_find_bin_size_subtable table rb (log_num_se sscreen) = .ok subtable ∧
        si_find_bin_size_subtable table ((rb * 3 + log_num_se sscreen) / 3)
          ((rb * 3 + log_num_se sscreen) % 3) = .ok subtable ∧
        rb < (rb * 3 + log_num_se sscreen) / 3 ∧
        (rb * 3 + log_num_se sscreen) / 3 < 3 ∧ (rb * 3 + log_num_se sscreen) % 3 < 3 ∧
        si_find_bin_size sscreen table sum = .ok size ∧
        ∀ other : si_screen,
          log_num_rb_per_se other = .ok ((rb * 3 + log_num_se sscreen) / 3) →
          log_num_se other = (rb * 3 + log_num_se sscreen) % 3 →
          si_find_bin_size other table sum = .ok size) ∧
    (9 ≤ rb * 3 + log_num_se sscreen →
      si_find_bin_size_subtable table rb (log_num_se sscreen) = .error .out_of_bounds ∧
      si_find_bin_size sscreen table sum = .error .out_of_bounds) ∧
    si_find_bin_size sscreen table sum ≠ .error .assert_failed := by
  have hpast : 9 ≤ rb * 3 + log_num_se sscreen →
      si_find_bin_size_subtable table rb (log_num_se sscreen) = .error .out_of_bounds ∧
      si_find_bin_size sscreen table sum = .error .out_of_bounds := by
    intro h9
    have hnone : table.flatten[rb * 3 + log_num_se sscreen]? = none :=
      List.getElem?_eq_none (by rw [tables_flat_length table htable]; exact h9)
    have hsub : si_find_bin_size_subtable table rb (log_num_se sscreen) =
        .error .out_of_bounds := by
      simp [si_find_bin_size_subtable, hnone]
    exact ⟨hsub, by simp [si_find_bin_size, hrb, hsub]⟩
  have hin : rb * 3 + log_num_se sscreen < 9 →
      ∃ subtable size,
        si_find_bin_size_subtable table rb (log_num_se sscreen) = .ok subtable ∧
        si_find_bin_size_subtable table ((rb * 3 + log_num_se sscreen) / 3)
          ((rb * 3 + log_num_se sscreen) % 3) = .ok subtable ∧
        rb < (rb * 3 + log_num_se sscreen) / 3 ∧
        (rb * 3 + log_num_se sscreen) / 3 < 3 ∧ (rb * 3 + log_num_se sscreen) % 3 < 3 ∧
        si_find_bin_size sscreen table sum = .ok size ∧
        ∀ other : si_screen,
          log_num_rb_per_se other = .ok ((rb * 3 + log_num_se sscreen) / 3) →
          log_num_se other = (rb * 3 + log_num_se sscreen) % 3 →
          si_find_bin_size other table sum = .ok size := by
    intro h9
    have hq : (rb * 3 + log_num_se sscreen) / 3 < 3 := by omega
    have hr : (rb * 3 + log_num_se sscreen) % 3 < 3 := by omega
    obtain ⟨subtable, hsubq, hok⟩ := tables_row_ok table htable _ _ hq hr
    have hidx : (rb * 3 + log_num_se sscreen) / 3 * 3 + (rb * 3 + log_num_se sscreen) % 3 =
        rb * 3 + log_num_se sscreen := by omega
    have hsub : si_find_bin_size_subtable table rb (log_num_se sscreen) = .ok subtable := by
      unfold si_find_bin_size_subtable at hsubq ⊢
      rw [hidx] at hsubq
      exact hsubq
    obtain ⟨n, s, hs, hsx, _, hfirst, hstep⟩ := row_ok_facts subtable hok
    have hreal : ∀ j, j < n → ∃ ej, subtable[j]? = some ej ∧ ej.bin_size_x ≠ 0 := by
      intro j hj
      obtain ⟨ej, _, q1, q2, _⟩ := hstep j hj
      exact ⟨ej, q1, q2⟩
    obtain ⟨_, ek, _, _, hres, _⟩ :=
      find_on_row sscreen table sum rb n subtable s hrb hsub hok hs hsx hfirst hreal
    refine ⟨subtable, _, hsub, hsubq, by omega, hq, hr, hres, ?_⟩
    intro other horb hose
    rw [← hose] at hsubq
    rw [si_find_bin_size_eq other table sum _ subtable horb hsubq, ← hres,
      si_find_bin_size_eq sscreen table sum rb subtable hrb hsub]
  refine ⟨hin, hpast, ?_⟩
  rcases Nat.lt_or_ge (rb * 3 + log_num_se sscreen) 9 with h9 | h9
  · obtain ⟨_, _, _, _, _, _, _, hres, _⟩ := hin h9
    rw [hres]
    simp
  · rw [(hpast h9).2]
    simp

/-- Witness of C12, amended: on the depth table, eight render backends and
eight shader engines address row `[1][0]` and the sum `24` silently gets the
size `(32, 128)`, as a screen with two render backends and one shader engine
does; eight render backends and one shader engine address memory past the
table. -/
theorem si_find_bin_size_out_of_range_witness :
    (∃ subtable size,
      si_find_bin_size_subtable si_get_depth_bin_size_table 0 (log_num_se eight_se_screen) =
        .ok subtable ∧
      si_find_bin_size_subtable si_get_depth_bin_size_table
        ((0 * 3 + log_num_se eight_se_screen) / 3)
        ((0 * 3 + log_num_se eight_se_screen) % 3) = .ok subtable ∧
      0 < (0 * 3 + log_num_se eight_se_screen) / 3 ∧
      (0 * 3 + log_num_se eight_se_screen) / 3 < 3 ∧
      (0 * 3 + log_num_se eight_se_screen) % 3 < 3 ∧
      si_find_bin_size eight_se_screen si_get_depth_bin_size_table 24 = .ok size ∧
      ∀ other : si_screen,
        log_num_rb_per_se other = .ok ((0 * 3 + log_num_se eight_se_screen) / 3) →
        log_num_se other = (0 * 3 + log_num_se eight_se_screen) % 3 →
        si_find_bin_size other si_get_depth_bin_size_table 24 = .ok size) ∧
    si_find_bin_size eight_se_screen si_get_depth_bin_size_table 24 = .ok ⟨32, 128⟩ ∧
    si_find_bin_size ⟨⟨2, 1⟩, true, true⟩ si_get_depth_bin_size_table 24 = .ok ⟨32, 128⟩ ∧
    (si_find_bin_size_subtable si_get_depth_bin_size_table 3
        (log_num_se eight_rb_per_se_screen) = .error .out_of_bounds ∧
      si_find_bin_size eight_rb_per_se_screen si_get_depth_bin_size_table 24 =
        .error .out_of_bounds) :=
  ⟨(si_find_bin_size_out_of_range eight_se_screen si_get_depth_bin_size_table 24 0
      (Or.inr rfl) (by decide) (Or.inr (by decide))).1 (by decide),
    by decide, by decide,
    (si_find_bin_size_out_of_range eight_rb_per_se_screen si_get_depth_bin_size_table 24 3
      (Or.inr rfl) (by decide) (Or.inl (by decide))).2.1 (by decide)⟩

/-- C13. On every snapshot that reaches step 4 of `si_emit_dpbb_state` (the
generation assertion and both gates are passed and the chosen bin size has no
zero dimension): when the punch-out mode is `AUTO`, `disable_start_of_prim` is
true iff the enabled colour targets (framebuffer enabled mask and blend write
mask) intersected with the blend-enable mask are non-empty; when the mode is
`FORCE_OFF`, `disable_start_of_prim` is true. For a chip family known to the
`switch` the evaluation produces register values, and word A carries that bit
and word B that mode. -/
theorem si_emit_dpbb_state_start_of_prim (sctx : si_context) (blend : si_state_blend)
    (dsa : si_state_dsa) (bin_size : uvec2)
    (hclass : GFX9 ≤ sctx.chip_class) (hallowed : sctx.screen.dpbb_allowed = true)
    (hblend : sctx.queued_named_blend = some blend) (hdsa : sctx.queued_named_dsa = some dsa)
    (hforce : sctx.dpbb_force_off = false)
    (hgate : (ps_can_kill sctx.ps_db_shader_control blend &&
      db_can_reject_z_trivially sctx.ps_db_shader_control &&
      sctx.framebuffer.state.zsbuf.isSome && dsa.db_can_write) = false)
    (hbin : si_emit_dpbb_state_bin_size sctx blend = .ok bin_size)
    (hx : bin_size.x ≠ 0) (hy : bin_size.y ≠ 0) :
    ((si_emit_dpbb_state_dfsm sctx blend).1 = V_028060.AUTO →
      ((si_emit_dpbb_state_dfsm sctx blend).2 = true ↔
        (sctx.framebuffer.colorbuf_enabled_4bit &&& blend.cb_target_enabled_4bit) &&&
          blend.blend_enable_4bit ≠ 0)) ∧
    ((si_emit_dpbb_state_dfsm sctx blend).1 = V_028060.FORCE_OFF →
      (si_emit_dpbb_state_dfsm sctx blend).2 = true) ∧
    (sctx.family ≠ .CHIP_OTHER →
      ∃ r, si_emit_dpbb_state sctx = .ok r ∧
        r.dfsm_control.PUNCHOUT_MODE = (si_emit_dpbb_state_dfsm sctx blend).1 ∧
        r.binner_cntl_0.DISABLE_START_OF_PRIM =
          if (si_emit_dpbb_state_dfsm sctx blend).2 = true then 1 else 0) := by
  refine ⟨?_, ?_, ?_⟩
  · cases hp : dfsm_preferred sctx blend <;>
      simp [si_emit_dpbb_state_dfsm, hp, cb_target_enabled_4bit]
  · cases hp : dfsm_preferred sctx blend <;> simp [si_emit_dpbb_state_dfsm, hp]
  · intro hfam
    rw [si_emit_dpbb_state_past_gates sctx blend dsa hclass hallowed hblend hdsa hforce hgate,
      hbin]
    cases hf : sctx.family with
    | CHIP_OTHER => exact absurd hf hfam
    | CHIP_VEGA10 => simp [hx, hy, si_emit_dpbb_state_tunables, bool_to_uint]
    | CHIP_VEGA12 => simp [hx, hy, si_emit_dpbb_state_tunables, bool_to_uint]
    | CHIP_RAVEN => simp [hx, hy, si_emit_dpbb_state_tunables, bool_to_uint]


/-- Witness of C13 at the example snapshot with blending enabled: the mode is
`AUTO` and `DISABLE_START_OF_PRIM` is `1`. -/
theorem si_emit_dpbb_state_start_of_prim_witness :
    (si_emit_dpbb_state_dfsm blend_enabled_context ⟨false, 0xf, 0xf⟩).1 = V_028060.AUTO ∧
    ((si_emit_dpbb_state_dfsm blend_enabled_context ⟨false, 0xf, 0xf⟩).2 = true ↔
      (blend_enabled_context.framebuffer.colorbuf_enabled_4bit &&& 0xf) &&& 0xf ≠ 0) ∧
    ∃ r, si_emit_dpbb_state blend_enabled_context = .ok r ∧
      r.dfsm_control.PUNCHOUT_MODE =
        (si_emit_dpbb_state_dfsm blend_enabled_context ⟨false, 0xf, 0xf⟩).1 ∧
      r.binner_cntl_0.DISABLE_START_OF_PRIM =
        if (si_emit_dpbb_state_dfsm blend_enabled_context ⟨false, 0xf, 0xf⟩).2 = true then 1
        else 0 :=
  ⟨by decide,
    (si_emit_dpbb_state_start_of_prim blend_enabled_context ⟨false, 0xf, 0xf⟩
      ⟨false, false, false⟩ ⟨32, 128⟩ (by decide) rfl rfl rfl rfl (by decide) (by decide)
      (by decide) (by decide)).1 (by decide),
    (si_emit_dpbb_state_start_of_prim blend_enabled_context ⟨false, 0xf, 0xf⟩
      ⟨false, false, false⟩ ⟨32, 128⟩ (by decide) rfl rfl rfl rfl (by decide) (by decide)
      (by decide) (by decide)).2.2 (by decide)⟩

/-- C14. On every snapshot with a depth buffer bound and the depth test or the
stencil test enabled, `si_get_depth_bin_size` returns the lookup in the depth
table of the workload sum, and that sum is
`4 * ((depth_enabled ? 5 : 0) + ((has_stencil && stencil_enabled) ? 1 : 0)) *
nr_samples` computed in `unsigned` arithmetic: it is the product reduced
modulo `2 ^ 32`, hence the product itself whenever that is below `2 ^ 32`, in
particular for every sample count below `2 ^ 27`. -/
theorem si_get_depth_bin_size_workload (sctx : si_context) (tex : si_texture)
    (dsa : si_state_dsa)
    (hzsbuf : sctx.framebuffer.state.zsbuf = some tex)
    (hdsa : sctx.queued_named_dsa = some dsa)
    (htest : dsa.depth_enabled = true ∨ dsa.stencil_enabled = true) :
    si_get_depth_bin_size sctx =
      si_find_bin_size sctx.screen si_get_depth_bin_size_table
        (si_get_depth_bin_size_sum dsa tex) ∧
    si_get_depth_bin_size_sum dsa tex =
      (4 * ((if dsa.depth_enabled = true then 5 else 0) +
        (if tex.has_stencil = true ∧ dsa.stencil_enabled = true then 1 else 0)) *
        tex.nr_samples) % 2 ^ 32 ∧
    (4 * ((if dsa.depth_enabled = true then 5 else 0) +
        (if tex.has_stencil = true ∧ dsa.stencil_enabled = true then 1 else 0)) *
        tex.nr_samples < 2 ^ 32 →
      si_get_depth_bin_size_sum dsa tex =
        4 * ((if dsa.depth_enabled = true then 5 else 0) +
          (if tex.has_stencil = true ∧ dsa.stencil_enabled = true then 1 else 0)) *
          tex.nr_samples) ∧
    (tex.nr_samples < 2 ^ 27 →
      si_get_depth_bin_size_sum dsa tex =
        4 * ((if dsa.depth_enabled = true then 5 else 0) +
          (if tex.has_stencil = true ∧ dsa.stencil_enabled = true then 1 else 0)) *
          tex.nr_samples) := by
  have hsum : si_get_depth_bin_size_sum dsa tex =
      (4 * ((if dsa.depth_enabled = true then 5 else 0) +
        (if tex.has_stencil = true ∧ dsa.stencil_enabled = true then 1 else 0)) *
        tex.nr_samples) % 2 ^ 32 := by
    simp [si_get_depth_bin_size_sum]
  have hexact : 4 * ((if dsa.depth_enabled = true then 5 else 0) +
        (if tex.has_stencil = true ∧ dsa.stencil_enabled = true then 1 else 0)) *
        tex.nr_samples < 2 ^ 32 →
      si_get_depth_bin_size_sum dsa tex =
        4 * ((if dsa.depth_enabled = true then 5 else 0) +
          (if tex.has_stencil = true ∧ dsa.stencil_enabled = true then 1 else 0)) *
          tex.nr_samples := by
    intro hlt
    rw [hsum, Nat.mod_eq_of_lt hlt]
  refine ⟨?_, hsum, hexact, ?_⟩
  · have hnot : (!dsa.depth_enabled && !dsa.stencil_enabled) = false := by
      rcases htest with h | h <;> simp [h]
    simp [si_get_depth_bin_size, hzsbuf, hdsa, hnot]
  · intro hn
    apply hexact
    have hcoef : ((if dsa.depth_enabled = true then 5 else 0) +
        (if tex.has_stencil = true ∧ dsa.stencil_enabled = true then 1 else 0)) ≤ 6 := by
      split_ifs <;> omega
    calc 4 * ((if dsa.depth_enabled = true then 5 else 0) +
          (if tex.has_stencil = true ∧ dsa.stencil_enabled = true then 1 else 0)) *
          tex.nr_samples
        ≤ 4 * 6 * tex.nr_samples :=
          Nat.mul_le_mul_right _ (Nat.mul_le_mul_left _ hcoef)
      _ < 2 ^ 32 := by omega

/-- Witness of C14: four samples with both tests enabled give the sum
`4 * (5 + 1) * 4 = 96`, whose lookup in row `[2][2]` of the depth table is
`(32, 256)`. -/
theorem si_get_depth_bin_size_workload_witness :
    si_get_depth_bin_size depth_stencil_context =
      si_find_bin_size depth_stencil_context.screen si_get_depth_bin_size_table
        (si_get_depth_bin_size_sum ⟨true, true, true⟩ ⟨4, true, 4⟩) ∧
    si_get_depth_bin_size_sum ⟨true, true, true⟩ ⟨4, true, 4⟩ = 96 ∧
    si_get_depth_bin_size depth_stencil_context = .ok ⟨32, 256⟩ :=
  ⟨(si_get_depth_bin_size_workload depth_stencil_context ⟨4, true, 4⟩ ⟨true, true, true⟩
      rfl rfl (Or.inl rfl)).1,
    by decide, by decide⟩


/-! ## Capability indices and table shape -/

/-- `util_logbase2_ceil n` is the least `k` with `n <= 2 ^ k`. -/
theorem util_logbase2_ceil_le_iff (n k : Nat) : util_logbase2_ceil n ≤ k ↔ n ≤ 2 ^ k := by
  unfold util_logbase2_ceil
  by_cases h1 : n ≤ 1
  · have hpos : 1 ≤ 2 ^ k := Nat.one_le_two_pow
    simp only [h1, if_true, Nat.zero_le, true_iff]
    omega
  · have hne : n - 1 ≠ 0 := by omega
    have hlog := @Nat.log2_lt (n - 1) k hne
    simp only [h1, if_false, util_logbase2_eq_log2]
    omega

/-- C17. The indices computed by `si_find_bin_size` are
`log_num_rb_per_se = util_logbase2_ceil (num_render_backends / max_se)`, with
the truncating division of natural numbers (defined when `max_se` is not
zero), and `log_num_se = util_logbase2_ceil max_se`, where
`util_logbase2_ceil n` is `0` for `n <= 1` and in general the least `k` with
`n <= 2 ^ k`; two render backends and one shader engine give the indices `1`
and `0`; and whenever `max_se` and `num_render_backends / max_se` both lie in
`1..4`, both indices lie in `0..2`. -/
theorem capability_indices (sscreen : si_screen) :
    (sscreen.info.max_se ≠ 0 →
      log_num_rb_per_se sscreen =
        .ok (util_logbase2_ceil (sscreen.info.num_render_backends / sscreen.info.max_se))) ∧
    log_num_se sscreen = util_logbase2_ceil sscreen.info.max_se ∧
    (∀ n, n ≤ 1 → util_logbase2_ceil n = 0) ∧
    (∀ n k, util_logbase2_ceil n ≤ k ↔ n ≤ 2 ^ k) ∧
    (sscreen.info.num_render_backends = 2 → sscreen.info.max_se = 1 →
      log_num_rb_per_se sscreen = .ok 1 ∧ log_num_se sscreen = 0) ∧
    (1 ≤ sscreen.info.max_se → sscreen.info.max_se ≤ 4 →
      1 ≤ sscreen.info.num_render_backends / sscreen.info.max_se →
      sscreen.info.num_render_backends / sscreen.info.max_se ≤ 4 →
      ∃ rb, log_num_rb_per_se sscreen = .ok rb ∧ rb ≤ 2 ∧ log_num_se sscreen ≤ 2) := by
  refine ⟨?_, rfl, ?_, util_logbase2_ceil_le_iff, ?_, ?_⟩
  · intro h
    simp [log_num_rb_per_se, h]
  · intro n hn
    simp [util_logbase2_ceil, hn]
  · intro h2 h1
    simp only [log_num_rb_per_se, log_num_se, h1, h2]
    decide
  · intro h1 h4 h1' h4'
    have hne : sscreen.info.max_se ≠ 0 := by omega
    refine ⟨util_logbase2_ceil (sscreen.info.num_render_backends / sscreen.info.max_se),
      by simp [log_num_rb_per_se, hne], ?_, ?_⟩
    · exact (util_logbase2_ceil_le_iff _ 2).mpr (by omega)
    · exact (util_logbase2_ceil_le_iff _ 2).mpr (by simpa [log_num_se] using h4)

/-- Witness of C17 on the screen of scenario 1. -/
theorem capability_indices_witness :
    log_num_rb_per_se scenario1_context.screen = .ok 1 ∧
    log_num_se scenario1_context.screen = 0 :=
  (capability_indices scenario1_context.screen).2.2.2.2.1 rfl rfl

/-- The sentinel index of a row is the index of any entry with
`bin_size_x = 0` before which every entry is real. -/
theorem sentinel_index_eq :
    ∀ (l : List si_bin_size_map) (n : Nat) (s : si_bin_size_map),
      l[n]? = some s → s.bin_size_x = 0 →
      (∀ j, j < n → ∃ ej, l[j]? = some ej ∧ ej.bin_size_x ≠ 0) →
      sentinel_index l = n := by
  intro l
  induction l with
  | nil => intro n s h; simp at h
  | cons e rest ih =>
    intro n s hs hsx hreal
    cases n with
    | zero =>
      have : e = s := by simpa using hs
      subst this
      simp [sentinel_index, hsx]
    | succ n =>
      obtain ⟨e0, q1, q2⟩ := hreal 0 (by omega)
      have : e = e0 := by simpa using q1
      subst this
      have hrest := ih n s (by simpa using hs) hsx (by
        intro j hj
        obtain ⟨ej, r1, r2⟩ := hreal (j + 1) (by omega)
        exact ⟨ej, by simpa using r1, r2⟩)
      simp [sentinel_index, q2, hrest]

/-- In a row that passes `row_padding_ok`, every entry after the sentinel is
the zero-filled entry. -/
theorem row_padding_after :
    ∀ (l : List si_bin_size_map), row_padding_ok l = true →
      ∀ (j : Nat) (e : si_bin_size_map), sentinel_index l < j → l[j]? = some e →
        e = si_bin_size_map.mk 0 0 0 := by
  intro l
  induction l with
  | nil => intro _ j e _ h; simp at h
  | cons e0 rest ih =>
    intro hp j e hj he
    cases j with
    | zero => omega
    | succ j =>
      have he' : rest[j]? = some e := by simpa using he
      by_cases hx : e0.bin_size_x = 0
      · simp only [row_padding_ok, hx, if_true] at hp
        have := (List.all_eq_true.mp hp) e (List.getElem?_mem he')
        simpa using this
      · simp only [row_padding_ok, hx, if_false] at hp
        simp only [sentinel_index, hx, if_false] at hj
        exact ih hp j e (by omega) he'

/-- Every row of the colour table and of the depth table with both indices in
`0..2` has ten entries, its sentinel at an index of at most `8`, dimensions
that pass `row_dims_ok` and zero padding after the sentinel. -/
theorem tables_row_shape (table : List (List (List si_bin_size_map)))
    (htable : table = si_get_color_bin_size_table ∨ table = si_get_depth_bin_size_table)
    (rb se : Nat) (hrb : rb < 3) (hse : se < 3) :
    ∃ subtable, si_find_bin_size_subtable table rb se = .ok subtable ∧
      subtable.length = 10 ∧ sentinel_index subtable ≤ 8 ∧
      row_dims_ok subtable = true ∧ row_padding_ok subtable = true := by
  rcases htable with rfl | rfl <;> interval_cases rb <;> interval_cases se <;>
    exact ⟨_, rfl, by decide⟩

/-- A dimension that passes `bin_dim_ok` is one of the six powers of two. -/
theorem bin_dim_ok_iff (n : Nat) :
    bin_dim_ok n = true ↔
      n = 16 ∨ n = 32 ∨ n = 64 ∨ n = 128 ∨ n = 256 ∨ n = 512 := by
  simp [bin_dim_ok, or_assoc]

/-- In a row that passes `row_dims_ok`, an entry is all-zero in its size or
both of its dimensions pass `bin_dim_ok`. -/
theorem row_dims_of_mem (l : List si_bin_size_map) (h : row_dims_ok l = true)
    (e : si_bin_size_map) (he : e ∈ l) :
    (e.bin_size_x = 0 ∧ e.bin_size_y = 0) ∨
      (bin_dim_ok e.bin_size_x = true ∧ bin_dim_ok e.bin_size_y = true) := by
  have := (List.all_eq_true.mp h) e he
  simpa using this

/-- C18. Every row of the colour table and of the depth table with both
indices in `0..2` is well formed: it has ten entries; its first entry has
threshold `0`; it has a sentinel with `bin_size_x = 0` and `bin_size_y = 0` at
an index `n <= 8`; up to and including the sentinel the thresholds increase
strictly; every entry before the sentinel has a non-zero width and a non-zero
height; and after the sentinel the row holds only zero-filled entries. -/
theorem tables_well_formed (table : List (List (List si_bin_size_map)))
    (htable : table = si_get_color_bin_size_table ∨ table = si_get_depth_bin_size_table)
    (rb se : Nat) (hrb : rb < 3) (hse : se < 3) :
    ∃ subtable n sentinel,
      si_find_bin_size_subtable table rb se = .ok subtable ∧
      subtable.length = 10 ∧ n ≤ 8 ∧
      subtable[n]? = some sentinel ∧
      sentinel.bin_size_x = 0 ∧ sentinel.bin_size_y = 0 ∧
      (∃ e0, subtable[0]? = some e0 ∧ e0.start = 0) ∧
      (∀ j, j < n → ∃ e e1, subtable[j]? = some e ∧ subtable[j + 1]? = some e1 ∧
        e.start < e1.start ∧ e.bin_size_x ≠ 0 ∧ e.bin_size_y ≠ 0) ∧
      (∀ (j : Nat) (e : si_bin_size_map), n < j → subtable[j]? = some e →
        e = si_bin_size_map.mk 0 0 0) := by
  obtain ⟨subtable, hsub, hok⟩ := tables_row_ok table htable rb se hrb hse
  obtain ⟨subtable', hsub', hlen, hidx, hdims, hpad⟩ :=
    tables_row_shape table htable rb se hrb hse
  have hsame : subtable' = subtable := by
    rw [hsub] at hsub'
    exact (Except.ok.inj hsub').symm
  subst hsame
  obtain ⟨n, s, hs, hsx, hsy, ⟨e0, rest, hl, h0⟩, hstep⟩ := row_ok_facts subtable' hok
  have hn : sentinel_index subtable' = n := by
    apply sentinel_index_eq subtable' n s hs hsx
    intro j hj
    obtain ⟨ej, _, q1, q2, _⟩ := hstep j hj
    exact ⟨ej, q1, q2⟩
  refine ⟨subtable', n, s, hsub, hlen, by omega, hs, hsx, hsy, ⟨e0, by simp [hl], h0⟩, ?_, ?_⟩
  · intro j hj
    obtain ⟨ej, ej1, q1, q2, q3, q4, _, _⟩ := hstep j hj
    refine ⟨ej, ej1, q1, q3, q4, q2, ?_⟩
    rcases row_dims_of_mem subtable' hdims ej (List.getElem?_mem q1) with h | h
    · exact absurd h.1 q2
    · have := (bin_dim_ok_iff ej.bin_size_y).mp h.2
      omega
  · intro j e hj he
    exact row_padding_after subtable' hpad j e (by omega) he

/-- Witness of C18 on row `[2][1]` of the depth table, the longest row. -/
theorem tables_well_formed_witness :
    ∃ subtable n sentinel,
      si_find_bin_size_subtable si_get_depth_bin_size_table 2 1 = .ok subtable ∧
      subtable.length = 10 ∧ n ≤ 8 ∧
      subtable[n]? = some sentinel ∧
      sentinel.bin_size_x = 0 ∧ sentinel.bin_size_y = 0 ∧
      (∃ e0, subtable[0]? = some e0 ∧ e0.start = 0) ∧
      (∀ j, j < n → ∃ e e1, subtable[j]? = some e ∧ subtable[j + 1]? = some e1 ∧
        e.start < e1.start ∧ e.bin_size_x ≠ 0 ∧ e.bin_size_y ≠ 0) ∧
      (∀ (j : Nat) (e : si_bin_size_map), n < j → subtable[j]? = some e →
        e = si_bin_size_map.mk 0 0 0) :=
  tables_well_formed si_get_depth_bin_size_table (Or.inr rfl) 2 1 (by decide) (by decide)


/-! ## Termination and bounds of the scan loop -/

/-- The instrumented scan loop exits as the scan loop does. -/
theorem scan_trace_result (sum : Nat) :
    ∀ (l : List si_bin_size_map) (i : Nat),
      (si_find_bin_size_scan_trace sum l i).result = si_find_bin_size_scan sum l i := by
  intro l
  induction l with
  | nil => intro i; rfl
  | cons e rest ih =>
    intro i
    cases rest with
    | nil =>
      rw [si_find_bin_size_scan_trace, si_find_bin_size_scan]
      by_cases hx : e.bin_size_x = 0
      · simp [hx]
      · by_cases hs : e.start ≤ sum
        · simp [hx, hs]
        · simp [hx, hs, ih]
    | cons e1 rest =>
      rw [si_find_bin_size_scan_trace, si_find_bin_size_scan]
      by_cases hx : e.bin_size_x = 0
      · simp [hx]
      · by_cases hs : e.start ≤ sum
        · by_cases hlt : sum < e1.start
          · simp [hx, hs, hlt]
          · simp [hx, hs, hlt, ih]
        · simp [hx, hs, ih]

/-- On a chained row the instrumented scan loop, started at index `i`, reads
no index above `i + sentinel_index`, enters the loop body at most
`sentinel_index` times and exits with an index of at most
`i + sentinel_index`. -/
theorem scan_trace_bound (R : si_bin_size_map → si_bin_size_map → Bool) (sum : Nat) :
    ∀ (l : List si_bin_size_map) (i : Nat), row_chain R l = true →
      (∀ j, j ∈ (si_find_bin_size_scan_trace sum l i).reads → j ≤ i + sentinel_index l) ∧
      (si_find_bin_size_scan_trace sum l i).iterations ≤ sentinel_index l ∧
      ∃ k, (si_find_bin_size_scan_trace sum l i).result = .ok k ∧
        k ≤ i + sentinel_index l := by
  intro l
  induction l with
  | nil => intro i h; simp [row_chain] at h
  | cons e rest ih =>
    intro i hc
    by_cases hx : e.bin_size_x = 0
    · cases rest <;> rw [si_find_bin_size_scan_trace] <;> simp [hx, sentinel_index]
    · cases rest with
      | nil => simp [row_chain, hx] at hc
      | cons e1 rest =>
        rw [si_find_bin_size_scan_trace]
        have hc1 := (row_chain_tail R e e1 rest hc hx).2
        obtain ⟨h1, h2, k, h3, h4⟩ := ih (i + 1) hc1
        have hsi : sentinel_index (e :: e1 :: rest) = sentinel_index (e1 :: rest) + 1 := by
          simp [sentinel_index, hx]
        rw [hsi]
        by_cases hs : e.start ≤ sum
        · by_cases hlt : sum < e1.start
          · simp only [hx, hs, hlt, ne_eq, not_false_eq_true, if_true]
            refine ⟨?_, by omega, i, rfl, by omega⟩
            intro j hj
            simp only [List.mem_cons, List.mem_singleton, List.not_mem_nil, or_false] at hj
            omega
          · simp only [hx, hs, hlt, ne_eq, not_false_eq_true, if_true, if_false]
            refine ⟨?_, by omega, k, h3, by omega⟩
            intro j hj
            simp only [List.mem_cons] at hj
            rcases hj with hj | hj | hj
            · omega
            · omega
            · have := h1 j hj
              omega
        · simp only [hx, hs, ne_eq, not_false_eq_true, if_true, if_false]
          refine ⟨?_, by omega, k, h3, by omega⟩
          intro j hj
          simp only [List.mem_cons] at hj
          rcases hj with hj | hj
          · omega
          · have := h1 j hj
            omega

/-- C19. For the colour table and the depth table, every pair of indices in
`0..2` and every workload sum, the scan loop of `si_find_bin_size` on the
selected ten-entry row terminates with an exit index: it enters the loop body
at most `9` times, every index at which it reads an entry or looks ahead at
`subtable[i + 1]` is at most `9` and so inside the row, and the read after the
loop is inside the row too, so that `si_find_bin_size` returns a size and
never takes an out-of-bounds branch. -/
theorem si_find_bin_size_scan_in_row (table : List (List (List si_bin_size_map)))
    (htable : table = si_get_color_bin_size_table ∨ table = si_get_depth_bin_size_table)
    (rb se sum : Nat) (hrb : rb < 3) (hse : se < 3) :
    ∃ subtable k,
      si_find_bin_size_subtable table rb se = .ok subtable ∧
      subtable.length = 10 ∧
      (si_find_bin_size_scan_trace sum subtable 0).result =
        si_find_bin_size_scan sum subtable 0 ∧
      si_find_bin_size_scan sum subtable 0 = .ok k ∧ k ≤ 9 ∧
      (si_find_bin_size_scan_trace sum subtable 0).iterations ≤ 9 ∧
      (∀ j, j ∈ (si_find_bin_size_scan_trace sum subtable 0).reads →
        j ≤ 9 ∧ j < subtable.length) ∧
      (∀ sscreen : si_screen, log_num_rb_per_se sscreen = .ok rb →
        log_num_se sscreen = se →
        ∃ size, si_find_bin_size sscreen table sum = .ok size) := by
  obtain ⟨subtable, hsub, hok⟩ := tables_row_ok table htable rb se hrb hse
  obtain ⟨subtable', hsub', hlen, hidx, _, _⟩ := tables_row_shape table htable rb se hrb hse
  have hsame : subtable' = subtable := by
    rw [hsub] at hsub'
    exact (Except.ok.inj hsub').symm
  subst hsame
  have hc : row_chain row_step subtable' = true := by
    simp only [row_ok, Bool.and_eq_true] at hok
    exact hok.1.1
  obtain ⟨hreads, hiter, k, hk, hkle⟩ := scan_trace_bound row_step sum subtable' 0 hc
  have hres := scan_trace_result sum subtable' 0
  rw [hres] at hk
  refine ⟨subtable', k, hsub, hlen, hres, hk, by omega, by omega, ?_, ?_⟩
  · intro j hj
    have := hreads j hj
    omega
  · intro sscreen hrb' hse'
    subst hse'
    have hkl : k < subtable'.length := by omega
    rw [si_find_bin_size_eq sscreen table sum rb subtable' hrb' hsub, hk]
    simp [List.getElem?_eq_getElem hkl]

/-- Witness of C19 on row `[2][1]` of the depth table at the sum `1000`, where
the loop runs up to the sentinel at index `8`. -/
theorem si_find_bin_size_scan_in_row_witness :
    (si_find_bin_size_scan_trace 1000
      (subtable_row [(0, 512, 512), (2, 256, 512), (4, 128, 512), (7, 64, 512), (13, 64, 256),
        (25, 64, 128), (49, 32, 128), (97, 16, 128), (193, 0, 0)]) 0) =
      ⟨.ok 8, [0, 1, 1, 2, 2, 3, 3, 4, 4, 5, 5, 6, 6, 7, 7, 8, 8], 8⟩ ∧
    ∃ subtable k,
      si_find_bin_size_subtable si_get_depth_bin_size_table 2 1 = .ok subtable ∧
      subtable.length = 10 ∧
      (si_find_bin_size_scan_trace 1000 subtable 0).result =
        si_find_bin_size_scan 1000 subtable 0 ∧
      si_find_bin_size_scan 1000 subtable 0 = .ok k ∧ k ≤ 9 ∧
      (si_find_bin_size_scan_trace 1000 subtable 0).iterations ≤ 9 ∧
      (∀ j, j ∈ (si_find_bin_size_scan_trace 1000 subtable 0).reads →
        j ≤ 9 ∧ j < subtable.length) ∧
      (∀ sscreen : si_screen, log_num_rb_per_se sscreen = .ok 2 →
        log_num_se sscreen = 1 →
        ∃ size, si_find_bin_size sscreen si_get_depth_bin_size_table 1000 = .ok size) :=
  ⟨by decide,
    si_find_bin_size_scan_in_row si_get_depth_bin_size_table (Or.inr rfl) 2 1 1000
      (by decide) (by decide)⟩


/-! ## The candidates and the chosen bin size -/

/-- Every row of the two tables passes `row_dims_ok`. -/
theorem tables_rows_dims (table : List (List (List si_bin_size_map)))
    (htable : table = si_get_color_bin_size_table ∨ table = si_get_depth_bin_size_table) :
    ∀ grid, grid ∈ table → ∀ subtable, subtable ∈ grid → row_dims_ok subtable = true := by
  rcases htable with rfl | rfl <;> decide

/-- A size returned by `si_find_bin_size` from one of the two tables is
`(0, 0)` or a pair of dimensions that pass `bin_dim_ok`. -/
theorem si_find_bin_size_ok_dims (sscreen : si_screen)
    (table : List (List (List si_bin_size_map))) (sum : Nat) (size : uvec2)
    (htable : table = si_get_color_bin_size_table ∨ table = si_get_depth_bin_size_table)
    (h : si_find_bin_size sscreen table sum = .ok size) :
    (size.x = 0 ∧ size.y = 0) ∨
      (bin_dim_ok size.x = true ∧ bin_dim_ok size.y = true) := by
  unfold si_find_bin_size at h
  cases hrb : log_num_rb_per_se sscreen with
  | error f => simp [hrb] at h
  | ok rb =>
    simp only [hrb] at h
    cases hsub : si_find_bin_size_subtable table rb (log_num_se sscreen) with
    | error f => simp [hsub] at h
    | ok subtable =>
      simp only [hsub] at h
      have hrow : row_dims_ok subtable = true := by
        unfold si_find_bin_size_subtable at hsub
        cases hg : table.flatten[rb * 3 + log_num_se sscreen]? with
        | none => simp [hg] at hsub
        | some row =>
          simp only [hg] at hsub
          have hrs : row = subtable := Except.ok.inj hsub
          subst hrs
          obtain ⟨grid, hgrid, hmem⟩ := List.mem_flatten.mp (List.getElem?_mem hg)
          exact tables_rows_dims table htable grid hgrid row hmem
      cases hscan : si_find_bin_size_scan sum subtable 0 with
      | error f => simp [hscan] at h
      | ok i =>
        simp only [hscan] at h
        cases he : subtable[i]? with
        | none => simp [he] at h
        | some e =>
          simp only [he] at h
          have hsize : size = ⟨e.bin_size_x, e.bin_size_y⟩ := (Except.ok.inj h).symm
          subst hsize
          exact row_dims_of_mem subtable hrow e (List.getElem?_mem he)

/-- A size returned by `si_get_depth_bin_size` is `(0, 0)` or a pair of
dimensions that pass `bin_dim_ok`. -/
theorem si_get_depth_bin_size_ok_dims (sctx : si_context) (size : uvec2)
    (h : si_get_depth_bin_size sctx = .ok size) :
    (size.x = 0 ∧ size.y = 0) ∨
      (bin_dim_ok size.x = true ∧ bin_dim_ok size.y = true) := by
  have hmax : ∀ s : uvec2, (Except.ok (⟨512, 512⟩ : uvec2) : Except Fault uvec2) = .ok s →
      (s.x = 0 ∧ s.y = 0) ∨ (bin_dim_ok s.x = true ∧ bin_dim_ok s.y = true) := by
    intro s hs
    have : s = ⟨512, 512⟩ := (Except.ok.inj hs).symm
    subst this
    exact Or.inr ⟨by decide, by decide⟩
  unfold si_get_depth_bin_size at h
  cases hz : sctx.framebuffer.state.zsbuf with
  | none =>
    simp only [hz] at h
    exact hmax size h
  | some tex =>
    simp only [hz] at h
    cases hd : sctx.queued_named_dsa with
    | none => simp [hd] at h
    | some dsa =>
      simp only [hd] at h
      by_cases hoff : (!dsa.depth_enabled && !dsa.stencil_enabled) = true
      · simp only [hoff, if_true] at h
        exact hmax size h
      · simp only [hoff, if_false] at h
        exact si_find_bin_size_ok_dims _ _ _ size (Or.inr rfl) h

/-- With both capability indices in `0..2`, `si_find_bin_size` returns a size
from either table for every sum. -/
theorem si_find_bin_size_returns (sscreen : si_screen)
    (table : List (List (List si_bin_size_map))) (rb sum : Nat)
    (htable : table = si_get_color_bin_size_table ∨ table = si_get_depth_bin_size_table)
    (hrb : log_num_rb_per_se sscreen = .ok rb) (hrb3 : rb < 3)
    (hse3 : log_num_se sscreen < 3) :
    ∃ size, si_find_bin_size sscreen table sum = .ok size := by
  obtain ⟨subtable, hsub, hok⟩ := tables_row_ok table htable rb (log_num_se sscreen) hrb3 hse3
  obtain ⟨n, s, hs, hsx, _, hfirst, hstep⟩ := row_ok_facts subtable hok
  have hreal : ∀ j, j < n → ∃ ej, subtable[j]? = some ej ∧ ej.bin_size_x ≠ 0 := by
    intro j hj
    obtain ⟨ej, _, q1, q2, _⟩ := hstep j hj
    exact ⟨ej, q1, q2⟩
  obtain ⟨_, ek, _, _, hres, _⟩ :=
    find_on_row sscreen table sum rb n subtable s hrb hsub hok hs hsx hfirst hreal
  exact ⟨_, hres⟩

/-- The area of a candidate: `0` for `(0, 0)`, and otherwise positive and
below `2 ^ 32` with both dimensions non-zero. -/
theorem candidate_area (size : uvec2)
    (h : (size.x = 0 ∧ size.y = 0) ∨
      (bin_dim_ok size.x = true ∧ bin_dim_ok size.y = true)) :
    (size = ⟨0, 0⟩ ∧ size.x * size.y = 0) ∨
      (size.x ≠ 0 ∧ size.y ≠ 0 ∧ 0 < size.x * size.y ∧ size.x * size.y < 2 ^ 32) := by
  rcases h with ⟨hx, hy⟩ | ⟨hx, hy⟩
  · left
    cases size
    simp_all
  · right
    have hx' := (bin_dim_ok_iff size.x).mp hx
    have hy' := (bin_dim_ok_iff size.y).mp hy
    have hxpos : 0 < size.x := by omega
    have hypos : 0 < size.y := by omega
    have hxle : size.x ≤ 512 := by omega
    have hyle : size.y ≤ 512 := by omega
    have hmul : size.x * size.y ≤ 512 * 512 := Nat.mul_le_mul hxle hyle
    exact ⟨by omega, by omega, Nat.mul_pos hxpos hypos, by omega⟩

/-- C16. On every snapshot that passes the generation assertion, the
eligibility gate and the inefficiency gate, with both capability indices in
`0..2` and a colour workload sum that is defined: both searches return a
candidate; the chosen bin size is one of the two candidates and its area is
the minimum of the two areas; whenever the chosen size has a zero width or
height the outcome is the fixed disable values; and the chosen size has a zero
width or height exactly when the colour search or the depth search returned
`(0, 0)`. -/
theorem si_emit_dpbb_state_chosen_size (sctx : si_context) (blend : si_state_blend)
    (dsa : si_state_dsa) (rb sum : Nat)
    (hclass : GFX9 ≤ sctx.chip_class) (hallowed : sctx.screen.dpbb_allowed = true)
    (hblend : sctx.queued_named_blend = some blend) (hdsa : sctx.queued_named_dsa = some dsa)
    (hforce : sctx.dpbb_force_off = false)
    (hgate : (ps_can_kill sctx.ps_db_shader_control blend &&
      db_can_reject_z_trivially sctx.ps_db_shader_control &&
      sctx.framebuffer.state.zsbuf.isSome && dsa.db_can_write) = false)
    (hrb : log_num_rb_per_se sctx.screen = .ok rb) (hrb3 : rb < 3)
    (hse3 : log_num_se sctx.screen < 3)
    (hsum : si_get_color_bin_size_sum sctx (cb_target_enabled_4bit sctx blend) = .ok sum) :
    ∃ color_bin_size depth_bin_size bin_size,
      si_get_color_bin_size sctx (cb_target_enabled_4bit sctx blend) = .ok color_bin_size ∧
      si_get_depth_bin_size sctx = .ok depth_bin_size ∧
      si_emit_dpbb_state_bin_size sctx blend = .ok bin_size ∧
      (bin_size = color_bin_size ∨ bin_size = depth_bin_size) ∧
      bin_size.x * bin_size.y =
        min (color_bin_size.x * color_bin_size.y) (depth_bin_size.x * depth_bin_size.y) ∧
      (bin_size.x = 0 ∨ bin_size.y = 0 → si_emit_dpbb_state sctx = .ok si_emit_dpbb_disable) ∧
      ((bin_size.x = 0 ∨ bin_size.y = 0) ↔
        (color_bin_size = ⟨0, 0⟩ ∨ depth_bin_size = ⟨0, 0⟩)) := by
  obtain ⟨c, hc⟩ := si_find_bin_size_returns sctx.screen si_get_color_bin_size_table rb sum
    (Or.inl rfl) hrb hrb3 hse3
  have hcolor : si_get_color_bin_size sctx (cb_target_enabled_4bit sctx blend) = .ok c := by
    simp [si_get_color_bin_size, hsum, hc]
  have hdepth : ∃ d, si_get_depth_bin_size sctx = .ok d := by
    unfold si_get_depth_bin_size
    cases hz : sctx.framebuffer.state.zsbuf with
    | none => exact ⟨_, rfl⟩
    | some tex =>
      simp only [hdsa]
      by_cases hoff : (!dsa.depth_enabled && !dsa.stencil_enabled) = true
      · simp only [hoff, if_true]
        exact ⟨_, rfl⟩
      · simp only [hoff, if_false]
        exact si_find_bin_size_returns sctx.screen si_get_depth_bin_size_table rb _
          (Or.inr rfl) hrb hrb3 hse3
  obtain ⟨d, hd⟩ := hdepth
  have hcd := candidate_area c (si_find_bin_size_ok_dims _ _ _ c (Or.inl rfl) hc)
  have hdd := candidate_area d (si_get_depth_bin_size_ok_dims sctx d hd)
  have hbin : si_emit_dpbb_state_bin_size sctx blend = .ok (bin_size_select c d) := by
    simp [si_emit_dpbb_state_bin_size, hcolor, hd]
  have hdis : ∀ b : uvec2, si_emit_dpbb_state_bin_size sctx blend = .ok b →
      (b.x = 0 ∨ b.y = 0) → si_emit_dpbb_state sctx = .ok si_emit_dpbb_disable := by
    intro b hb hz
    rw [si_emit_dpbb_state_past_gates sctx blend dsa hclass hallowed hblend hdsa hforce hgate,
      hb]
    simp [hz]
  refine ⟨c, d, bin_size_select c d, hcolor, hd, hbin, ?_, ?_, hdis _ hbin, ?_⟩
  · unfold bin_size_select
    simp only
    split_ifs
    · exact Or.inl rfl
    · exact Or.inr rfl
  · have hclt : c.x * c.y < 2 ^ 32 := by
      rcases hcd with ⟨_, h0⟩ | ⟨_, _, _, h⟩
      · rw [h0]; decide
      · exact h
    have hdlt : d.x * d.y < 2 ^ 32 := by
      rcases hdd with ⟨_, h0⟩ | ⟨_, _, _, h⟩
      · rw [h0]; decide
      · exact h
    unfold bin_size_select
    simp only [Nat.mod_eq_of_lt hclt, Nat.mod_eq_of_lt hdlt]
    split_ifs with hlt
    · exact (Nat.min_eq_left (Nat.le_of_lt hlt)).symm
    · exact (Nat.min_eq_right (by omega)).symm
  · have hclt : c.x * c.y < 2 ^ 32 := by
      rcases hcd with ⟨_, h0⟩ | ⟨_, _, _, h⟩
      · rw [h0]; decide
      · exact h
    have hdlt : d.x * d.y < 2 ^ 32 := by
      rcases hdd with ⟨_, h0⟩ | ⟨_, _, _, h⟩
      · rw [h0]; decide
      · exact h
    unfold bin_size_select
    simp only [Nat.mod_eq_of_lt hclt, Nat.mod_eq_of_lt hdlt]
    rcases hcd with ⟨hcz, hc0⟩ | ⟨hcx, hcy, hcpos, _⟩
    · -- the colour search returned the sentinel
      constructor
      · intro _
        exact Or.inl hcz
      · intro _
        split_ifs with hlt
        · rw [hcz]
          exact Or.inl rfl
        · rcases hdd with ⟨hdz, _⟩ | ⟨_, _, hdpos, _⟩
          · rw [hdz]
            exact Or.inl rfl
          · omega
    · rcases hdd with ⟨hdz, hd0⟩ | ⟨hdx, hdy, hdpos, _⟩
      · -- the depth search returned the sentinel
        have hnlt : ¬ c.x * c.y < d.x * d.y := by omega
        simp only [hnlt, if_false]
        constructor
        · intro _
          exact Or.inr hdz
        · intro _
          rw [hdz]
          exact Or.inl rfl
      · -- both candidates are real
        constructor
        · intro h
          split_ifs at h <;> omega
        · intro h
          rcases h with h | h
          · rw [h] at hcx
            exact absurd rfl hcx
          · rw [h] at hdx
            exact absurd rfl hdx

/-- Witness of C16 on a snapshot whose colour search returns `(0, 0)`: the
chosen size is `(0, 0)` and the outcome is the fixed disable values. -/
theorem si_emit_dpbb_state_chosen_size_witness :
    si_get_color_bin_size_sum heavy_color_context
      (cb_target_enabled_4bit heavy_color_context ⟨false, 0xf, 0⟩) = .ok 64 ∧
    si_get_color_bin_size heavy_color_context
      (cb_target_enabled_4bit heavy_color_context ⟨false, 0xf, 0⟩) = .ok ⟨0, 0⟩ ∧
    si_emit_dpbb_state heavy_color_context = .ok si_emit_dpbb_disable ∧
    ∃ color_bin_size depth_bin_size bin_size,
      si_get_color_bin_size heavy_color_context
        (cb_target_enabled_4bit heavy_color_context ⟨false, 0xf, 0⟩) = .ok color_bin_size ∧
      si_get_depth_bin_size heavy_color_context = .ok depth_bin_size ∧
      si_emit_dpbb_state_bin_size heavy_color_context ⟨false, 0xf, 0⟩ = .ok bin_size ∧
      (bin_size = color_bin_size ∨ bin_size = depth_bin_size) ∧
      bin_size.x * bin_size.y =
        min (color_bin_size.x * color_bin_size.y) (depth_bin_size.x * depth_bin_size.y) ∧
      (bin_size.x = 0 ∨ bin_size.y = 0 →
        si_emit_dpbb_state heavy_color_context = .ok si_emit_dpbb_disable) ∧
      ((bin_size.x = 0 ∨ bin_size.y = 0) ↔
        (color_bin_size = ⟨0, 0⟩ ∨ depth_bin_size = ⟨0, 0⟩)) :=
  ⟨by decide, by decide, by decide,
    si_emit_dpbb_state_chosen_size heavy_color_context ⟨false, 0xf, 0⟩ ⟨false, false, false⟩
      1 64 (by decide) rfl rfl rfl rfl (by decide) (by decide) (by decide) (by decide)
      (by decide)⟩

/-! ## The encoding of the bin size -/

/-- The encoding of one dimension that passes `bin_dim_ok`: the size extend is
at most `4`, and the dimension is `16` when the minimum-size flag is set and
`32 * 2 ^ extend` otherwise. -/
theorem bin_dim_encoding (n : Nat) (h : bin_dim_ok n = true) :
    bin_size_extend n ≤ 4 ∧
    n = if bool_to_uint (n == 16) = 1 then 16 else 32 * 2 ^ bin_size_extend n := by
  rcases (bin_dim_ok_iff n).mp h with h | h | h | h | h | h <;> subst h <;> decide

/-- The bin size behind register values whose mode is binning allowed: both
dimensions pass `bin_dim_ok` and are encoded by the flags and size extends of
word A. -/
theorem enabled_size_encoding (sctx : si_context) (r : dpbb_regs) (blend : si_state_blend)
    (bin_size : uvec2)
    (h : si_emit_dpbb_state sctx = .ok r)
    (hmode : r.binner_cntl_0.BINNING_MODE = V_028C44.BINNING_ALLOWED)
    (hblend : sctx.queued_named_blend = some blend)
    (hbin : si_emit_dpbb_state_bin_size sctx blend = .ok bin_size) :
    bin_dim_ok bin_size.x = true ∧ bin_dim_ok bin_size.y = true ∧
    r.binner_cntl_0.BIN_SIZE_X_EXTEND ≤ 4 ∧ r.binner_cntl_0.BIN_SIZE_Y_EXTEND ≤ 4 ∧
    bin_size.x =
      (if r.binner_cntl_0.BIN_SIZE_X = 1 then 16
        else 32 * 2 ^ r.binner_cntl_0.BIN_SIZE_X_EXTEND) ∧
    bin_size.y =
      (if r.binner_cntl_0.BIN_SIZE_Y = 1 then 16
        else 32 * 2 ^ r.binner_cntl_0.BIN_SIZE_Y_EXTEND) := by
  rcases si_emit_dpbb_state_ok_cases sctx r h with
    h' | ⟨blend0, dsa, bin0, t, _, _, hblend0, _, _, _, hbin0, hx, hy, _, hr⟩
  · rw [h'] at hmode
    simp [si_emit_dpbb_disable] at hmode
  · have hb : blend0 = blend := by
      rw [hblend] at hblend0
      exact (Option.some.inj hblend0).symm
    subst hb
    have hs : bin0 = bin_size := by
      rw [hbin] at hbin0
      exact (Except.ok.inj hbin0).symm
    subst hs
    -- the chosen size is one of the two candidates
    have hdims : (bin0.x = 0 ∧ bin0.y = 0) ∨
        (bin_dim_ok bin0.x = true ∧ bin_dim_ok bin0.y = true) := by
      unfold si_emit_dpbb_state_bin_size at hbin
      cases hc : si_get_color_bin_size sctx (cb_target_enabled_4bit sctx blend0) with
      | error f => simp [hc] at hbin
      | ok c =>
        simp only [hc] at hbin
        cases hd : si_get_depth_bin_size sctx with
        | error f => simp [hd] at hbin
        | ok d =>
          simp only [hd] at hbin
          have hsel : bin_size_select c d = bin0 := Except.ok.inj hbin
          have hcd : (c.x = 0 ∧ c.y = 0) ∨
              (bin_dim_ok c.x = true ∧ bin_dim_ok c.y = true) := by
            unfold si_get_color_bin_size at hc
            cases hsum : si_get_color_bin_size_sum sctx (cb_target_enabled_4bit sctx blend0) with
            | error f => simp [hsum] at hc
            | ok sum =>
              simp only [hsum] at hc
              exact si_find_bin_size_ok_dims _ _ _ c (Or.inl rfl) hc
          have hdd := si_get_depth_bin_size_ok_dims sctx d hd
          rw [← hsel]
          unfold bin_size_select
          simp only
          split_ifs
          · exact hcd
          · exact hdd
    have hxy : bin_dim_ok bin0.x = true ∧ bin_dim_ok bin0.y = true := by
      rcases hdims with ⟨h0, _⟩ | h1
      · exact absurd h0 hx
      · exact h1
    have ex := bin_dim_encoding bin0.x hxy.1
    have ey := bin_dim_encoding bin0.y hxy.2
    subst hr
    exact ⟨hxy.1, hxy.2, ex.1, ey.1, ex.2, ey.2⟩

/-- C20. Whenever `si_emit_dpbb_state` produces register values whose mode is
binning allowed, the bin width and the bin height are each one of `16`, `32`,
`64`, `128`, `256`, `512`; each size extend of word A is at most `4`; each
dimension is recovered from word A as `16` when its minimum-size flag is `1`
and as `32 * 2 ^ extend` otherwise; and any other evaluation that enables
binning with the same two flags and the same two size extends has the same
bin size. -/
theorem si_emit_dpbb_state_size_encoding (sctx : si_context) (r : dpbb_regs)
    (h : si_emit_dpbb_state sctx = .ok r)
    (hmode : r.binner_cntl_0.BINNING_MODE = V_028C44.BINNING_ALLOWED) :
    ∃ blend bin_size,
      sctx.queued_named_blend = some blend ∧
      si_emit_dpbb_state_bin_size sctx blend = .ok bin_size ∧
      (bin_size.x = 16 ∨ bin_size.x = 32 ∨ bin_size.x = 64 ∨ bin_size.x = 128 ∨
        bin_size.x = 256 ∨ bin_size.x = 512) ∧
      (bin_size.y = 16 ∨ bin_size.y = 32 ∨ bin_size.y = 64 ∨ bin_size.y = 128 ∨
        bin_size.y = 256 ∨ bin_size.y = 512) ∧
      r.binner_cntl_0.BIN_SIZE_X_EXTEND ≤ 4 ∧ r.binner_cntl_0.BIN_SIZE_Y_EXTEND ≤ 4 ∧
      bin_size.x =
        (if r.binner_cntl_0.BIN_SIZE_X = 1 then 16
          else 32 * 2 ^ r.binner_cntl_0.BIN_SIZE_X_EXTEND) ∧
      bin_size.y =
        (if r.binner_cntl_0.BIN_SIZE_Y = 1 then 16
          else 32 * 2 ^ r.binner_cntl_0.BIN_SIZE_Y_EXTEND) ∧
      (∀ (sctx' : si_context) (r' : dpbb_regs) (blend' : si_state_blend) (bin_size' : uvec2),
        si_emit_dpbb_state sctx' = .ok r' →
        r'.binner_cntl_0.BINNING_MODE = V_028C44.BINNING_ALLOWED →
        sctx'.queued_named_blend = some blend' →
        si_emit_dpbb_state_bin_size sctx' blend' = .ok bin_size' →
        r'.binner_cntl_0.BIN_SIZE_X = r.binner_cntl_0.BIN_SIZE_X →
        r'.binner_cntl_0.BIN_SIZE_Y = r.binner_cntl_0.BIN_SIZE_Y →
        r'.binner_cntl_0.BIN_SIZE_X_EXTEND = r.binner_cntl_0.BIN_SIZE_X_EXTEND →
        r'.binner_cntl_0.BIN_SIZE_Y_EXTEND = r.binner_cntl_0.BIN_SIZE_Y_EXTEND →
        bin_size' = bin_size) := by
  rcases si_emit_dpbb_state_ok_cases sctx r h with
    h' | ⟨blend, _, bin_size, _, _, _, hblend, _, _, _, hbin, _, _, _, _⟩
  · rw [h'] at hmode
    simp [si_emit_dpbb_disable] at hmode
  · obtain ⟨dx, dy, ex, ey, rx, ry⟩ := enabled_size_encoding sctx r blend bin_size h hmode
      hblend hbin
    refine ⟨blend, bin_size, hblend, hbin, (bin_dim_ok_iff _).mp dx, (bin_dim_ok_iff _).mp dy,
      ex, ey, rx, ry, ?_⟩
    intro sctx' r' blend' bin_size' h1 hmode' hblend' hbin' e1 e2 e3 e4
    obtain ⟨_, _, _, _, rx', ry'⟩ := enabled_size_encoding sctx' r' blend' bin_size' h1 hmode'
      hblend' hbin'
    rw [e1, e3] at rx'
    rw [e2, e4] at ry'
    cases bin_size
    cases bin_size'
    simp only [uvec2.mk.injEq]
    simp only at rx ry rx' ry'
    exact ⟨rx'.trans rx.symm, ry'.trans ry.symm⟩

/-- Witness of C20 at the example snapshot, whose bin size `(32, 128)` is
encoded by the flags `0`, `0` and the size extends `0`, `2`. -/
theorem si_emit_dpbb_state_size_encoding_witness :
    ∃ blend bin_size,
      example_context.queued_named_blend = some blend ∧
      si_emit_dpbb_state_bin_size example_context blend = .ok bin_size ∧
      (bin_size.x = 16 ∨ bin_size.x = 32 ∨ bin_size.x = 64 ∨ bin_size.x = 128 ∨
        bin_size.x = 256 ∨ bin_size.x = 512) ∧
      (bin_size.y = 16 ∨ bin_size.y = 32 ∨ bin_size.y = 64 ∨ bin_size.y = 128 ∨
        bin_size.y = 256 ∨ bin_size.y = 512) ∧
      (0 : Nat) ≤ 4 ∧ (2 : Nat) ≤ 4 ∧
      bin_size.x = (if (0 : Nat) = 1 then 16 else 32 * 2 ^ 0) ∧
      bin_size.y = (if (0 : Nat) = 1 then 16 else 32 * 2 ^ 2) ∧
      (∀ (sctx' : si_context) (r' : dpbb_regs) (blend' : si_state_blend) (bin_size' : uvec2),
        si_emit_dpbb_state sctx' = .ok r' →
        r'.binner_cntl_0.BINNING_MODE = V_028C44.BINNING_ALLOWED →
        sctx'.queued_named_blend = some blend' →
        si_emit_dpbb_state_bin_size sctx' blend' = .ok bin_size' →
        r'.binner_cntl_0.BIN_SIZE_X = 0 →
        r'.binner_cntl_0.BIN_SIZE_Y = 0 →
        r'.binner_cntl_0.BIN_SIZE_X_EXTEND = 0 →
        r'.binner_cntl_0.BIN_SIZE_Y_EXTEND = 2 →
        bin_size' = bin_size) :=
  si_emit_dpbb_state_size_encoding example_context
    ⟨⟨V_028C44.BINNING_ALLOWED, 0, 0, 0, 2, 5, 31, 0, 63, 1⟩, ⟨V_028060.AUTO, 1⟩⟩
    (by decide) rfl


/-! ## The colour workload sum -/

/-- Masking with the four bits at offset `k` keeps the low four bits of the
shifted value. -/
theorem and_nibble (x k : Nat) : x &&& (15 <<< k) = ((x >>> k) &&& 15) <<< k := by
  apply Nat.eq_of_testBit_eq
  intro j
  simp only [Nat.testBit_and, Nat.testBit_shiftLeft, Nat.testBit_shiftRight]
  by_cases h : k ≤ j
  · have : k + (j - k) = j := by omega
    simp [h, this]
  · simp [h]

/-- The four bits of `x` at offset `k` are all clear exactly when the quotient
`x / 2 ^ k` is a multiple of `16`. -/
theorem and_nibble_eq_zero (x k : Nat) : x &&& (15 <<< k) = 0 ↔ (x / 2 ^ k) % 16 = 0 := by
  rw [and_nibble, Nat.shiftLeft_eq, Nat.shiftRight_eq_div_pow]
  have h15 : (x / 2 ^ k) &&& 15 = (x / 2 ^ k) % 16 := Nat.and_pow_two_sub_one_eq_mod _ 4
  rw [h15]
  have hpos : 0 < 2 ^ k := Nat.two_pow_pos k
  constructor
  · intro h
    rcases Nat.mul_eq_zero.mp h with h | h
    · exact h
    · omega
  · intro h
    rw [h, Nat.zero_mul]

/-- On a 32-bit mask the source test `mask & (0xf << (i * 4))` is zero exactly
when the four-bit group `i` of the mask is zero. -/
theorem group_test_iff (mask i : Nat) (hmask : mask < 2 ^ 32) :
    mask &&& ((0xf <<< (i * 4)) % 2 ^ 32) = 0 ↔ (mask / 16 ^ i) % 16 = 0 := by
  have h16 : (16 : Nat) ^ i = 2 ^ (i * 4) := by
    rw [Nat.mul_comm, Nat.pow_mul]
  by_cases hi : i < 8
  · have hlt : (0xf <<< (i * 4)) < 2 ^ 32 := by
      interval_cases i <;> decide
    rw [Nat.mod_eq_of_lt hlt, h16]
    exact and_nibble_eq_zero mask (i * 4)
  · have hle : 2 ^ 32 ≤ (16 : Nat) ^ i := by
      rw [h16]
      exact Nat.pow_le_pow_right (by decide) (by omega)
    have hz : (0xf <<< (i * 4)) % 2 ^ 32 = 0 := by
      rw [Nat.shiftLeft_eq]
      have : i * 4 = 32 + (i * 4 - 32) := by omega
      rw [this, Nat.pow_add]
      rw [← Nat.mul_assoc, Nat.mul_comm 15, Nat.mul_assoc]
      exact Nat.mul_mod_right _ _
    rw [hz, Nat.and_zero, Nat.div_eq_of_lt (by omega)]

/-- The loop over the colour buffers, on a 32-bit mask whose enabled targets
are bound: it returns the running total plus the bytes per pixel of the
enabled targets among `i, ..., i + n - 1`, reduced modulo `2 ^ 32`. -/
theorem si_get_color_bin_size_bpp_eq (fb : pipe_framebuffer_state) (mask : Nat)
    (hmask : mask < 2 ^ 32) :
    ∀ (n i sum : Nat),
      (∀ j, i ≤ j → j < i + n → target_group_enabled mask j = true →
        ∃ tex, fb.cbufs[j]? = some (some tex)) →
      sum < 2 ^ 32 →
      si_get_color_bin_size_bpp fb mask n i sum =
        .ok ((sum + (((List.range' i n).filter (target_group_enabled mask)).map
          (target_bpe fb)).sum) % 2 ^ 32) := by
  intro n
  induction n with
  | zero =>
    intro i sum _ hsum
    simp only [si_get_color_bin_size_bpp, List.range'_zero, List.filter_nil, List.map_nil,
      List.sum_nil, Nat.add_zero, Nat.mod_eq_of_lt hsum]
  | succ n ih =>
    intro i sum hbufs hsum
    have hrest : ∀ j, i + 1 ≤ j → j < i + 1 + n → target_group_enabled mask j = true →
        ∃ tex, fb.cbufs[j]? = some (some tex) :=
      fun j h1 h2 h3 => hbufs j (by omega) (by omega) h3
    rw [si_get_color_bin_size_bpp, List.range'_succ]
    by_cases hen : target_group_enabled mask i = true
    · have htest : ¬ (mask &&& ((0xf <<< (i * 4)) % 2 ^ 32) = 0) := by
        rw [group_test_iff mask i hmask]
        simpa [target_group_enabled] using hen
      obtain ⟨tex, htex⟩ := hbufs i (Nat.le_refl _) (by omega) hen
      have hbpe : target_bpe fb i = tex.bpe := by simp [target_bpe, htex]
      simp only [htest, if_false, htex]
      rw [ih (i + 1) ((sum + tex.bpe) % 2 ^ 32) hrest (Nat.mod_lt _ (by decide))]
      simp only [List.filter_cons, hen, if_true, List.map_cons, List.sum_cons, hbpe]
      congr 1
      omega
    · have htest : mask &&& ((0xf <<< (i * 4)) % 2 ^ 32) = 0 := by
        rw [group_test_iff mask i hmask]
        simpa [target_group_enabled] using hen
      simp only [htest, if_true]
      rw [ih (i + 1) sum hrest hsum]
      simp [List.filter_cons, hen]


/-- C15. On every snapshot and every 32-bit enabled mask whose enabled colour
targets are bound, the colour workload sum of `si_get_color_bin_size` is
`B * m` computed in `unsigned` arithmetic, where `B` is the sum of the bytes
per pixel over exactly the targets `i < nr_cbufs` whose four-bit group `i` of
the mask is non-zero, and `m` is `1` if the colour sample count is below `2`,
the colour sample count if it is at least `2` and the pixel-shader iteration
count is at least `2`, and `2` otherwise: the sum is `B * m` reduced modulo
`2 ^ 32`, hence `B * m` itself whenever that is below `2 ^ 32`. The colour bin
size is the lookup of that sum in the colour table, and the mask passed by
`si_emit_dpbb_state` is the framebuffer enabled mask intersected with the
blend write mask. -/
theorem si_get_color_bin_size_workload (sctx : si_context) (mask : Nat)
    (hmask : mask < 2 ^ 32)
    (hbufs : ∀ i, i < sctx.framebuffer.state.nr_cbufs → target_group_enabled mask i = true →
      ∃ tex, sctx.framebuffer.state.cbufs[i]? = some (some tex)) :
    si_get_color_bin_size_sum sctx mask =
      .ok ((enabled_bytes_per_pixel sctx.framebuffer.state mask * sample_factor sctx) %
        2 ^ 32) ∧
    (enabled_bytes_per_pixel sctx.framebuffer.state mask * sample_factor sctx < 2 ^ 32 →
      si_get_color_bin_size_sum sctx mask =
        .ok (enabled_bytes_per_pixel sctx.framebuffer.state mask * sample_factor sctx)) ∧
    si_get_color_bin_size sctx mask =
      si_find_bin_size sctx.screen si_get_color_bin_size_table
        ((enabled_bytes_per_pixel sctx.framebuffer.state mask * sample_factor sctx) %
          2 ^ 32) ∧
    (∀ blend, cb_target_enabled_4bit sctx blend =
      sctx.framebuffer.colorbuf_enabled_4bit &&& blend.cb_target_enabled_4bit) := by
  have hloop : si_get_color_bin_size_bpp sctx.framebuffer.state mask
      sctx.framebuffer.state.nr_cbufs 0 0 =
      .ok (enabled_bytes_per_pixel sctx.framebuffer.state mask % 2 ^ 32) := by
    rw [si_get_color_bin_size_bpp_eq sctx.framebuffer.state mask hmask
      sctx.framebuffer.state.nr_cbufs 0 0
      (fun j _ h2 h3 => hbufs j (by omega) h3) (by decide)]
    simp only [Nat.zero_add, enabled_bytes_per_pixel, List.range_eq_range']
  have hsum : si_get_color_bin_size_sum sctx mask =
      .ok ((enabled_bytes_per_pixel sctx.framebuffer.state mask * sample_factor sctx) %
        2 ^ 32) := by
    have hmul : ∀ b f : Nat, (b % 2 ^ 32 * f) % 2 ^ 32 = (b * f) % 2 ^ 32 := by
      intro b f
      rw [Nat.mul_mod (b % 2 ^ 32) f, Nat.mod_mod, ← Nat.mul_mod]
    simp only [si_get_color_bin_size_sum, hloop, sample_factor]
    by_cases h2 : 2 ≤ sctx.framebuffer.nr_color_samples
    · have hn : ¬ sctx.framebuffer.nr_color_samples < 2 := by omega
      by_cases hi : 2 ≤ sctx.si_get_ps_iter_samples
      · simp only [h2, hi, hn, if_true, if_false, hmul]
      · simp only [h2, hi, hn, if_true, if_false, hmul]
    · have hn : sctx.framebuffer.nr_color_samples < 2 := by omega
      simp only [h2, hn, if_true, if_false, Nat.mul_one]
  refine ⟨hsum, ?_, ?_, fun _ => rfl⟩
  · intro hlt
    rw [hsum, Nat.mod_eq_of_lt hlt]
  · simp only [si_get_color_bin_size, hsum]

/-- Witness of C15: of two bound targets only the second is written, so
`B = 8`; with four colour samples and no per-sample shading `m = 2`, and the
sum is `16`. -/
theorem si_get_color_bin_size_workload_witness :
    cb_target_enabled_4bit two_target_context ⟨false, 0xf0, 0⟩ = 0xf0 ∧
    enabled_bytes_per_pixel two_target_context.framebuffer.state 0xf0 = 8 ∧
    sample_factor two_target_context = 2 ∧
    si_get_color_bin_size_sum two_target_context 0xf0 = .ok 16 :=
  ⟨by decide, by decide, by decide,
    (si_get_color_bin_size_workload two_target_context 0xf0 (by decide)
      (by
        intro i hi hen
        have hi2 : i < 2 := hi
        interval_cases i
        · exact absurd hen (by decide)
        · exact ⟨⟨8, false, 4⟩, rfl⟩)).2.1 (by decide)⟩


end SiStateBinning
